import Mathlib

/-!
Verification of the manasat voice-session controller.

This file gives a shallow embedding of the core logic of the repository
(`src/types.ts` and the mock persistence layer in `src/unnamed/part_002`)
and proves properties of it:

* `withRetry` (src/types.ts lines 715-764): bounded retry with fixed
  backoff schedule, fatal-error classification and cancellation.
* `handleToolCall` (src/types.ts lines 941-1045): the serialized tool-call
  dispatcher guarded by `isProcessingRef`.
* the `onmessage` callback (src/types.ts lines 1106-1196): audio
  scheduling, interruption handling and per-turn transcript aggregation.
* `stopSession` (src/types.ts lines 1255-1326): session-end flush and
  playback teardown.
* the `onerror` reconnect loop (src/types.ts lines 1197-1217) together
  with the attempt-counter reset at the top of `connectSession`
  (src/types.ts lines 1047-1053).
* `saveInquiry` (src/unnamed/part_002 lines 205-236): the conversation
  log store, truncated to its last 200 records.

JavaScript machine details that matter are modelled explicitly: string
`includes` checks, the `x || default` falsy coalescing (empty string and
zero are falsy), `Array.prototype.slice(-n)`, and abort-signal checks at
each suspension point of the retry loop.
-/

namespace Manasat

/-! ## Basic helpers -/

/-- JavaScript `String.prototype.toLowerCase`, restricted to the ASCII
range (the markers `withRetry` and `getErrorMessage` look for are all
ASCII). -/
def jsToLowerCase (s : String) : String :=
  String.mk (s.toList.map Char.toLower)

/-- JavaScript `haystack.includes(needle)` on strings. -/
def containsSubstr (haystack needle : String) : Bool :=
  decide (needle.toList <:+: haystack.toList)

/-- JavaScript `Array.prototype.slice(-n)`: the last `n` elements of a
list (the whole list when it is shorter than `n`). -/
def jsSliceLast (n : Nat) (l : List α) : List α :=
  l.drop (l.length - n)

/-! ## RetryPolicy: `withRetry` (src/types.ts lines 715-764)

`withRetry` runs `fn` up to `maxAttempts` times.  The translation makes
the observable events of one execution explicit as a trace:

* the wrapped operation is modelled as `fn : Nat → Except String α`
  giving the outcome of the k-th invocation (1-based);
* `aStart k` tells whether `abortControllerRef.current.signal.aborted`
  reads `true` at the loop-top check before attempt `k`;
* `aWait k` tells whether the abort event fires during the backoff wait
  that follows attempt `k` (note: a listener added to an
  already-aborted signal does not fire, so an abort that happened
  before the wait began surfaces at the next loop-top check instead);
* the returned trace records operation invocations, `onRetry` observer
  calls and completed backoff waits, in execution order, and the final
  outcome is the value returned or the error thrown. -/

/-- One observable event of a `withRetry` execution. -/
inductive RetryStep where
  | attemptCall (k : Nat)
  | observer (k : Nat)
  | wait (k : Nat) (ms : Nat)
deriving Repr, DecidableEq

/-- Attempt index of a retry-trace step. -/
def RetryStep.idx : RetryStep → Nat
  | .attemptCall k => k
  | .observer k => k
  | .wait k _ => k

/-- The fixed backoff schedule `const delays = [500, 1000, 2000]`. -/
def retryDelays : List Nat := [500, 1000, 2000]

/-- Fatal-error classification of `withRetry` (src/types.ts lines
739-741): the lowercased message contains one of the non-retryable
markers. -/
def isFatalError (msg : String) : Bool :=
  let m := jsToLowerCase msg
  containsSubstr m "api key" || containsSubstr m "quota" ||
  containsSubstr m "unauthorized" || containsSubstr m "forbidden" ||
  containsSubstr m "invalid"

/-- The k-th invocation fails and is classified retryable. -/
def failsTransient (fn : Nat → Except String α) (j : Nat) : Bool :=
  match fn j with
  | Except.ok _ => false
  | Except.error e => !(isFatalError e)

/-- The retry loop of `withRetry`.  `attempt` is the 1-based attempt
counter; `fuel` is the number of loop iterations left
(`maxAttempts - attempt + 1` at every real call site), which drives the
structural recursion; the last argument is `lastError`.  JS detail:
`delays[attempt - 1]` is read with `getD _ 0` because `setTimeout` with
an out-of-range (`undefined`) delay fires immediately. -/
def withRetryGo (fn : Nat → Except String α) (maxAttempts : Nat)
    (aStart aWait : Nat → Bool) :
    Nat → Nat → String → List RetryStep × Except String α
  | _, 0, lastError => ([], Except.error lastError)
  | attempt, fuel+1, _ =>
    if aStart attempt then
      ([], Except.error "Connection cancelled")
    else
      match fn attempt with
      | Except.ok v => ([RetryStep.attemptCall attempt], Except.ok v)
      | Except.error e =>
        if isFatalError e then
          ([RetryStep.attemptCall attempt], Except.error e)
        else if attempt < maxAttempts then
          if aWait attempt then
            ([RetryStep.attemptCall attempt, RetryStep.observer attempt],
             Except.error "Connection cancelled")
          else
            let r := withRetryGo fn maxAttempts aStart aWait (attempt+1) fuel e
            (RetryStep.attemptCall attempt :: RetryStep.observer attempt ::
               RetryStep.wait attempt (retryDelays.getD (attempt-1) 0) :: r.1,
             r.2)
        else
          let r := withRetryGo fn maxAttempts aStart aWait (attempt+1) fuel e
          (RetryStep.attemptCall attempt :: r.1, r.2)

/-- Entry point `withRetry fn { maxAttempts }` under abort environment
`aStart`/`aWait`: the loop starts at attempt 1 with
`lastError = Error('Unknown error')`. -/
def withRetry (fn : Nat → Except String α) (maxAttempts : Nat)
    (aStart aWait : Nat → Bool) : List RetryStep × Except String α :=
  withRetryGo fn maxAttempts aStart aWait 1 maxAttempts "Unknown error"

/-- The abort signal never fires. -/
def noAbort : Nat → Bool := fun _ => false

/-- Shorthand for `withRetry` with no cancellation. -/
def withRetryNA (fn : Nat → Except String α) (maxAttempts : Nat) :
    List RetryStep × Except String α :=
  withRetry fn maxAttempts noAbort noAbort

/-- Number of invocations of the wrapped operation recorded in a trace. -/
def numCalls (tr : List RetryStep) : Nat :=
  (tr.filter fun s => match s with | RetryStep.attemptCall _ => true | _ => false).length

/-! ## Conversation log sink: `saveInquiry` (src/unnamed/part_002 lines 205-236) -/

/-- The `ConversationLog` record of src/unnamed/part_002 lines 114-127. -/
structure ConversationLog where
  id : String
  sessionId : String
  timestamp : String
  userMessage : String
  botResponse : String
  intent : String
  propertyId : Option String
  propertyType : Option String
  location : Option String
  toolsUsed : List String
  status : String
  duration : Option Nat
deriving Repr, DecidableEq

/-- The store-update effect of `saveInquiry` (src/unnamed/part_002 lines
205-236): read the stored list, push the freshly built record, write back
`inquiries.slice(-200)`.  The construction of the record itself (id,
session id, timestamp, intent detection) does not affect retention, so
the record is taken as the given `log`. -/
def saveInquiryStore (inquiries : List ConversationLog)
    (log : ConversationLog) : List ConversationLog :=
  jsSliceLast 200 (inquiries ++ [log])

/-! ## Application model (src/types.ts, the `App` component)

The mutable refs and state of the `App` component are gathered in one
record.  React `useState` setters are modelled as immediate field
updates; the one place where the code reads a stale closure value
(`const historyIndex = propertyHistory.length + 1` in the
`search_property` case) is translated against the pre-update history, as
the closure does. -/

/-- The `Property` interface of src/types.ts lines 19-27. -/
structure Property where
  id : String
  title : String
  price : String
  location : String
  description : String
  images : List String
  type : String
deriving Repr, DecidableEq

/-- Default used only to give `List.getD` a value at indices that are
proved in bounds. -/
def defaultProperty : Property :=
  { id := "", title := "", price := "", location := "", description := "",
    images := [], type := "" }

/-- A backend tool invocation (`fc`): correlation id, function name and
arguments.  `search_property` carries `args.query`; `show_previous_property`
carries `args.index` (absent when the backend omits it). -/
structure FnCall where
  id : String
  name : String
  query : String
  index : Option Int
deriving Repr, DecidableEq

/-- Arguments of one `saveInquiry` call made by the session (the record
the conversation-log sink receives, before enrichment). -/
structure FlushRecord where
  userText : String
  assistantText : String
  propertyId : Option String
  toolsUsed : List String
  status : String
  startTime : Nat
deriving Repr, DecidableEq

/-- The refs and state of the `App` component that the session callbacks
read and write (src/types.ts lines 683-712). `sessionUp` stands for
`sessionRef.current` / `sessionPromiseRef.current` being non-null (they
are set and cleared together); `sources` holds the handles of the
currently scheduled `AudioBufferSourceNode`s; `guardTimer` is the pending
`setTimeout` that will clear `isProcessingRef`; `flushed` records the
arguments of the `saveInquiry` calls made so far, in order;
`sentResponses` records the `sendToolResponse` payloads, in order. -/
structure AppModel where
  activeProperty : Option Property
  propertyHistory : List Property
  showGallery : Bool
  showLeadForm : Bool
  sessionUp : Bool
  nextStartTime : Nat
  sources : List Nat
  nextSourceId : Nat
  currentInput : String
  currentOutput : String
  isProcessing : Bool
  toolsUsed : List String
  turnStartTime : Nat
  transcript : List (String × String)
  flushed : List FlushRecord
  sentResponses : List (String × String)
  guardTimer : Option Nat
deriving Repr, DecidableEq

/-- The record an in-session `saveInquiry(u, a, { propertyId:
activeProperty?.id, toolsUsed: [...toolsUsedRef.current], status,
startTime: turnStartTimeRef.current })` call passes to the sink. -/
def mkFlushRecord (st : AppModel) (u a status : String) : FlushRecord :=
  { userText := u, assistantText := a,
    propertyId := st.activeProperty.map (fun p => p.id),
    toolsUsed := st.toolsUsed, status := status,
    startTime := st.turnStartTime }

/-- JavaScript `(fc.args.index || 1)`: a missing index and the (falsy)
index `0` both coalesce to `1`. -/
def coalesceIndex : Option Int → Int
  | none => 1
  | some v => if v = 0 then 1 else v

/-- Response string of the successful `show_previous_property` branch
(src/types.ts line 1000); `n` is the 1-based `index + 1`. -/
def showPrevSuccessMsg (n : Int) (title : String) : String :=
  s!"تم فتح العقار رقم {n}: {title}. الصور معروضة."

/-- Response string of the out-of-range `show_previous_property` branch
(src/types.ts line 1002). -/
def showPrevOutOfRangeMsg (count : Nat) : String :=
  s!"ما عندي عقار بهذا الرقم. عرضت {count} عقارات."

/-- Response string of the successful `search_property` branch
(src/types.ts line 979). -/
def searchSuccessMsg (historyIndex : Nat) (p : Property) : String :=
  let n := historyIndex
  let t := p.title
  let l := p.location
  let ty := p.type
  let d := p.description
  s!"تم فتح معرض الصور. العقار رقم {n}: {t}. الموقع: {l}. النوع: {ty}. {d}. الصور معروضة الآن."

/-- Response string of the zero-results-with-alternatives branch
(src/types.ts line 983). -/
def searchAlternativesMsg (alternatives : List String) : String :=
  let a := String.intercalate "، " alternatives
  s!"عذراً، لا يوجد عقارات بهذه المواصفات هنا. عندنا في: {a}. تحب أي حي؟"

/-- The `switch (fc.name)` body of `handleToolCall` (src/types.ts lines
962-1027), run after the guard has been taken and the lead form closed.
The external async collaborators are parameters: `searchFn` is
`searchProperties` (an `Except` models a rejected promise, caught by the
inner `try`), `altFn` is `getAlternativeLocations`.  Returns the updated
state and the `response` string. -/
def toolSwitch (searchFn : String → Except String (List Property))
    (altFn : String → List String) (st : AppModel) (fc : FnCall) :
    AppModel × String :=
  match fc.name with
  | "search_property" =>
    match searchFn fc.query with
    | Except.error _ => (st, "حدث خطأ في البحث. حاول مرة ثانية.")
    | Except.ok [] =>
      let alternatives := altFn fc.query
      if alternatives.length > 0 then (st, searchAlternativesMsg alternatives)
      else (st, "عذراً، لا يوجد عقارات متوفرة. تحب أسجل طلبك؟")
    | Except.ok (property :: _) =>
      let newHistory :=
        if st.propertyHistory.any fun p => p.id == property.id then
          st.propertyHistory
        else st.propertyHistory ++ [property]
      -- `historyIndex` reads the stale closure value of `propertyHistory`,
      -- i.e. the pre-update list.
      let historyIndex := st.propertyHistory.length + 1
      ({st with activeProperty := some property, propertyHistory := newHistory,
                showGallery := true},
       searchSuccessMsg historyIndex property)
  | "show_previous_property" =>
    let index : Int := coalesceIndex fc.index - 1
    if 0 ≤ index ∧ index < (st.propertyHistory.length : Int) then
      let prevProperty := st.propertyHistory.getD index.toNat defaultProperty
      let t := prevProperty.title
      ({st with activeProperty := some prevProperty, showGallery := true},
       showPrevSuccessMsg (index + 1) t)
    else (st, showPrevOutOfRangeMsg st.propertyHistory.length)
  | "open_gallery" =>
    match st.activeProperty with
    | some p =>
      let t := p.title
      if st.showGallery then (st, s!"معرض الصور مفتوح فعلاً: {t}.")
      else ({st with showGallery := true}, s!"تم فتح معرض الصور: {t}.")
    | none => (st, "ابحث عن عقار أولاً.")
  | "close_gallery" =>
    ({st with showGallery := false}, "تم إغلاق معرض الصور.")
  | "open_lead_form" =>
    ({st with showLeadForm := true},
     "تم فتح نموذج التسجيل. اطلب من العميل تعبئة بياناته.")
  | _ => (st, "تم تنفيذ الأمر")

/-- The tail of `handleToolCall` (src/types.ts lines 1029-1044): run the
switch body, send the response back over the session (when
`sessionPromiseRef.current` is non-null) correlated by `fc.id`, and let
the `finally` block schedule the 100 ms timer that will release the
guard. -/
def dispatchRespond (searchFn : String → Except String (List Property))
    (altFn : String → List String) (st : AppModel) (fc : FnCall) : AppModel :=
  let rs := toolSwitch searchFn altFn st fc
  let st3 := rs.1
  let st4 :=
    if st3.sessionUp then
      {st3 with sentResponses := st3.sentResponses ++ [(fc.id, rs.2)]}
    else st3
  {st4 with guardTimer := some 100}

/-- The dispatcher `handleToolCall` (src/types.ts lines 941-1045).  If the guard
`isProcessingRef.current` is held the invocation returns at once with no
effect.  Otherwise the guard is taken, the tool name is pushed onto
`toolsUsedRef`, the lead form is closed when a search-type tool runs, and
the body runs through `dispatchRespond`. -/
def handleToolCall (searchFn : String → Except String (List Property))
    (altFn : String → List String) (st : AppModel) (fc : FnCall) : AppModel :=
  if st.isProcessing then st
  else
    let st1 := {st with isProcessing := true,
                        toolsUsed := st.toolsUsed ++ [fc.name]}
    let st2 :=
      if (fc.name == "search_property" || fc.name == "show_previous_property")
          && st1.showLeadForm then
        {st1 with showLeadForm := false}
      else st1
    dispatchRespond searchFn altFn st2 fc

/-- The pending `setTimeout(() => { isProcessingRef.current = false },
100)` fires: the guard reopens. -/
def fireGuardTimer (st : AppModel) : AppModel :=
  {st with isProcessing := false, guardTimer := none}

/-- One inbound `LiveServerMessage` as the `onmessage` callback reads it
(src/types.ts lines 1106-1196): each field is optional and they are
processed in a fixed order.  `audio` carries the pair
(`ctx.currentTime` when the chunk is scheduled, decoded buffer
duration); `now` is `Date.now()` at processing time. -/
structure ServerMessage where
  audio : Option (Nat × Nat)
  interrupted : Bool
  inputTranscription : Option String
  outputTranscription : Option String
  turnComplete : Bool
  toolCalls : List FnCall
  now : Nat
deriving Repr, DecidableEq

/-- Audio scheduling (src/types.ts lines 1111-1127) with a live output
context: `nextStartTime = max(nextStartTime, ctx.currentTime)`, start a
new source at the cursor, advance the cursor by the buffer duration and
track the source in the active set. -/
def processAudio (st : AppModel) : Option (Nat × Nat) → AppModel
  | none => st
  | some (ctxTime, duration) =>
    {st with nextStartTime := max st.nextStartTime ctxTime + duration,
             sources := st.sources ++ [st.nextSourceId],
             nextSourceId := st.nextSourceId + 1}

/-- Interruption handling (src/types.ts lines 1129-1154): flush the
open turn as `interrupted` (substituting placeholders for an empty
side) when any accumulated text exists, then stop and drop every active
source, reset the cursor to zero and close the gallery if it is open. -/
def processInterrupted (st : AppModel) : Bool → AppModel
  | false => st
  | true =>
    let st1 :=
      if st.currentInput ≠ "" ∨ st.currentOutput ≠ "" then
        {st with
          flushed := st.flushed ++
            [mkFlushRecord st
              (if st.currentInput = "" then "[مقاطعة]" else st.currentInput)
              (if st.currentOutput = "" then "[تم المقاطعة]" else st.currentOutput)
              "interrupted"],
          toolsUsed := [], currentInput := "", currentOutput := ""}
      else st
    let st2 := {st1 with sources := [], nextStartTime := 0}
    if st2.showGallery then {st2 with showGallery := false} else st2

/-- Input-transcript accumulation (src/types.ts lines 1156-1162): start
the turn clock on the first fragment, then append. -/
def processInputTranscription (st : AppModel) (now : Nat) :
    Option String → AppModel
  | none => st
  | some t =>
    let st1 := if st.turnStartTime = 0 then {st with turnStartTime := now} else st
    {st1 with currentInput := st1.currentInput ++ t}

/-- Output-transcript accumulation (src/types.ts lines 1163-1165). -/
def processOutputTranscription (st : AppModel) : Option String → AppModel
  | none => st
  | some t => {st with currentOutput := st.currentOutput ++ t}

/-- Turn completion (src/types.ts lines 1167-1186): append the pair to
the 5-entry UI transcript, flush a `complete` record when either side is
non-empty, and reset the per-turn accumulators. -/
def processTurnComplete (st : AppModel) : Bool → AppModel
  | false => st
  | true =>
    let userMsg := st.currentInput
    let botMsg := st.currentOutput
    let st1 := {st with transcript := jsSliceLast 5 (st.transcript ++ [(userMsg, botMsg)])}
    let st2 :=
      if userMsg ≠ "" ∨ botMsg ≠ "" then
        {st1 with flushed := st1.flushed ++ [mkFlushRecord st1 userMsg botMsg "complete"]}
      else st1
    {st2 with currentInput := "", currentOutput := "", toolsUsed := [],
              turnStartTime := 0}

/-- The `onmessage` callback (src/types.ts lines 1106-1196).  Nothing is
processed once the session is stopped (`if (!sessionRef.current)
return`).  The message fields are handled in source order; the tool
calls of one message are dispatched in order and, `handleToolCall`
taking its guard synchronously, all but the first of a batch are
dropped. -/
def onMessage (searchFn : String → Except String (List Property))
    (altFn : String → List String) (st : AppModel) (msg : ServerMessage) :
    AppModel :=
  if st.sessionUp = false then st
  else
    let st1 := processAudio st msg.audio
    let st2 := processInterrupted st1 msg.interrupted
    let st3 := processInputTranscription st2 msg.now msg.inputTranscription
    let st4 := processOutputTranscription st3 msg.outputTranscription
    let st5 := processTurnComplete st4 msg.turnComplete
    msg.toolCalls.foldl (handleToolCall searchFn altFn) st5

/-- Teardown `stopSession` (src/types.ts lines 1255-1326), the parts that touch
the modelled state: flush the open turn as `session_end` (with
placeholders for an empty side) and clear the accumulators, stop and
drop all active sources, reset the cursor to zero, and null the session
refs. -/
def stopSession (st : AppModel) : AppModel :=
  let st1 :=
    if st.currentInput ≠ "" ∨ st.currentOutput ≠ "" then
      {st with
        flushed := st.flushed ++
          [mkFlushRecord st
            (if st.currentInput = "" then "[انتهاء الجلسة]" else st.currentInput)
            (if st.currentOutput = "" then "[تم إنهاء الجلسة]" else st.currentOutput)
            "session_end"],
        currentInput := "", currentOutput := "", toolsUsed := [],
        turnStartTime := 0}
    else st
  {st1 with sources := [], nextStartTime := 0, sessionUp := false}

/-- The state of the `App` component right after a session has opened:
everything clean, session refs set. -/
def connectedModel : AppModel :=
  { activeProperty := none, propertyHistory := [], showGallery := false,
    showLeadForm := false, sessionUp := true, nextStartTime := 0,
    sources := [], nextSourceId := 0, currentInput := "",
    currentOutput := "", isProcessing := false, toolsUsed := [],
    turnStartTime := 0, transcript := [], flushed := [],
    sentResponses := [], guardTimer := none }

/-- A message carrying nothing (all fields absent). -/
def emptyMsg (now : Nat) : ServerMessage :=
  { audio := none, interrupted := false, inputTranscription := none,
    outputTranscription := none, turnComplete := false, toolCalls := [],
    now := now }

/-- A message carrying one input-transcript fragment. -/
def inputMsg (s : String) (now : Nat) : ServerMessage :=
  {emptyMsg now with inputTranscription := some s}

/-- A message carrying one output-transcript fragment. -/
def outputMsg (s : String) : ServerMessage :=
  {emptyMsg 0 with outputTranscription := some s}

/-- A message carrying only the turn-complete marker. -/
def turnCompleteMsg (now : Nat) : ServerMessage :=
  {emptyMsg now with turnComplete := true}

/-- A message carrying only the interruption marker. -/
def interruptMsg (now : Nat) : ServerMessage :=
  {emptyMsg now with interrupted := true}

/-- A message carrying a batch of tool calls. -/
def toolCallMsg (fcs : List FnCall) (now : Nat) : ServerMessage :=
  {emptyMsg now with toolCalls := fcs}

/-- One inbound transcript fragment, for stating concatenation
properties. -/
inductive Frag where
  | inp (s : String)
  | outp (s : String)
deriving Repr, DecidableEq

/-- The message delivering one fragment. -/
def Frag.msg : Frag → ServerMessage
  | .inp s => inputMsg s 0
  | .outp s => outputMsg s

/-- Concatenation of the input-side fragments, in arrival order. -/
def inputConcat : List Frag → String
  | [] => ""
  | Frag.inp s :: r => s ++ inputConcat r
  | Frag.outp _ :: r => inputConcat r

/-- Concatenation of the output-side fragments, in arrival order. -/
def outputConcat : List Frag → String
  | [] => ""
  | Frag.inp _ :: r => outputConcat r
  | Frag.outp s :: r => s ++ outputConcat r

/-! ## Session controller reconnect loop

`onerror` (src/types.ts lines 1197-1211) schedules a 1-second
`setTimeout` running `stopSession(); connectSession();` while
`reconnectAttemptsRef.current < maxReconnectAttempts`, and tears the
session down otherwise.  `connectSession` (src/types.ts lines
1047-1053) begins with `reconnectAttemptsRef.current = 0`.  The
microphone/connection acquisition inside `connectSession` (itself
retried through `withRetry`) is abstracted to a `ConnectOutcome`; the
ghost field `reconnectsStarted` counts how many times the reconnect
timer has invoked `connectSession`. -/

/-- The constant `maxReconnectAttempts = 3` (src/types.ts line 709). -/
def maxReconnectAttempts : Nat := 3

/-- User-facing `getErrorMessage` (src/types.ts lines 767-779). -/
def getErrorMessage (msg : String) : String :=
  let m := jsToLowerCase msg
  if containsSubstr m "api key" || containsSubstr m "unauthorized" then
    "خطأ في المصادقة - تواصل مع الدعم"
  else if containsSubstr m "quota" then
    "تم تجاوز الحد المسموح - حاول لاحقاً"
  else if containsSubstr m "network" || containsSubstr m "fetch" then
    "تأكد من اتصال الإنترنت"
  else "حدث خطأ - اضغط للمحاولة مرة أخرى"

/-- Result of one `connectSession` body: the connection opened, or the
whole acquisition failed with the given error message. -/
inductive ConnectOutcome where
  | success
  | failure (msg : String)
deriving Repr, DecidableEq

/-- Controller-level state: `connected` is `sessionRef.current ≠ null`,
`reconnectAttempts` is `reconnectAttemptsRef.current`,
`pendingReconnects` counts the scheduled (never cancelled) reconnect
timeouts, and `reconnectsStarted` is ghost instrumentation counting the
automatic `connectSession` invocations. -/
structure CtrlState where
  connected : Bool
  reconnectAttempts : Nat
  pendingReconnects : Nat
  status : String
  reconnectsStarted : Nat
deriving Repr, DecidableEq

/-- The teardown effect of `stopSession` at controller level: the
session ref is nulled and the status ends at the idle prompt
(src/types.ts line 1325). -/
def ctrlStopSession (st : CtrlState) : CtrlState :=
  {st with connected := false, status := "جاهزة لخدمتك.. اضغط للتحدث"}

/-- The body of `connectSession` as entered by the reconnect timer
(session already nulled): the attempt counter is reset to 0 first
(src/types.ts line 1050), then the acquisition either succeeds (session
live, `onopen` status) or fails (catch branch: cancellation restores
the idle prompt, anything else shows `getErrorMessage`). -/
def runConnectSession (st : CtrlState) (outcome : ConnectOutcome) : CtrlState :=
  let st1 := {st with reconnectAttempts := 0,
                      reconnectsStarted := st.reconnectsStarted + 1}
  match outcome with
  | ConnectOutcome.success => {st1 with connected := true, status := "أنا أسمعك الآن.."}
  | ConnectOutcome.failure msg =>
    {st1 with connected := false,
              status := if msg == "Connection cancelled" then
                          "جاهزة لخدمتك.. اضغط للتحدث"
                        else getErrorMessage msg}

/-- The `onerror` callback (src/types.ts lines 1197-1211), fired while a
session is live. -/
def onTransportError (st : CtrlState) : CtrlState :=
  if st.reconnectAttempts < maxReconnectAttempts then
    {st with reconnectAttempts := st.reconnectAttempts + 1,
             status := "جاري إعادة الاتصال...",
             pendingReconnects := st.pendingReconnects + 1}
  else
    ctrlStopSession {st with status := "حدث خطأ - اضغط للمحاولة مرة أخرى"}

/-- A scheduled reconnect timeout fires: `stopSession();
connectSession();` with the given acquisition outcome. -/
def fireReconnectTimer (st : CtrlState) (outcome : ConnectOutcome) : CtrlState :=
  if st.pendingReconnects = 0 then st
  else
    runConnectSession
      (ctrlStopSession {st with pendingReconnects := st.pendingReconnects - 1})
      outcome

/-- Controller events: a transport error surfacing on the live session,
or a scheduled reconnect timer firing with the given outcome. -/
inductive CtrlEvent where
  | transportError
  | reconnectTimer (outcome : ConnectOutcome)
deriving Repr, DecidableEq

/-- One controller step. A transport error is only delivered while the
session is live (the callback belongs to the live session object). -/
def ctrlStep (st : CtrlState) : CtrlEvent → CtrlState
  | CtrlEvent.transportError => if st.connected then onTransportError st else st
  | CtrlEvent.reconnectTimer o => fireReconnectTimer st o

/-- A freshly connected controller. -/
def ctrlInit : CtrlState :=
  { connected := true, reconnectAttempts := 0, pendingReconnects := 0,
    status := "أنا أسمعك الآن..", reconnectsStarted := 0 }

/-! ## Concrete fixtures used by witnesses and counterexamples -/

/-- An operation that always fails with a transient network error. -/
def exhaustFn : Nat → Except String Unit := fun _ => Except.error "network timeout"

/-- An abort signal that reads aborted exactly at the start of attempt 2. -/
def cancelAtTwo : Nat → Bool := fun k => k == 2

/-- A sample property. -/
def sampleProperty : Property :=
  { id := "1", title := "فيلا فاخرة في حطين", price := "",
    location := "الرياض، حي حطين", description := "فيلا بتصميم عصري",
    images := ["a.jpg"], type := "فيلا" }

/-- A search collaborator returning no results. -/
def noSearch : String → Except String (List Property) := fun _ => Except.ok []

/-- A search collaborator whose promise rejects. -/
def failingSearch : String → Except String (List Property) :=
  fun _ => Except.error "search backend down"

/-- An alternatives collaborator returning nothing. -/
def noAlts : String → List String := fun _ => []

/-- An app state with one property in the history and the session live. -/
def historyOneModel : AppModel :=
  {connectedModel with propertyHistory := [sampleProperty]}

/-- A `show_previous_property` call with index 0. -/
def showPrevZeroCall : FnCall :=
  { id := "call-7", name := "show_previous_property", query := "", index := some 0 }

/-- A `show_previous_property` call with index 1. -/
def showPrevOneCall : FnCall :=
  { id := "call-7", name := "show_previous_property", query := "", index := some 1 }

/-- A `search_property` call. -/
def searchCall : FnCall :=
  { id := "call-9", name := "search_property", query := "فيلا في الرياض", index := none }

/-- An `open_lead_form` call. -/
def leadFormCall : FnCall :=
  { id := "call-3", name := "open_lead_form", query := "", index := none }

/-- An app state in the middle of effecting a tool call (guard held). -/
def busyModel : AppModel :=
  {historyOneModel with isProcessing := true, showGallery := true}

/-- An app state with audio playing mid-turn. -/
def playingModel : AppModel :=
  {connectedModel with sources := [0, 1], nextSourceId := 2,
                       nextStartTime := 7, currentInput := "مرحبا"}

/-- A sample stored conversation-log record. -/
def sampleLog : ConversationLog :=
  { id := "1700000000000", sessionId := "session_x", timestamp := "t",
    userMessage := "أبي فيلا", botResponse := "تم", intent := "search",
    propertyId := none, propertyType := some "فيلا", location := none,
    toolsUsed := ["search_property"], status := "complete", duration := none }

/-! ## Lemmas about the retry loop -/

@[simp]
theorem numCalls_nil : numCalls [] = 0 := rfl

@[simp]
theorem numCalls_cons_call (k : Nat) (l : List RetryStep) :
    numCalls (RetryStep.attemptCall k :: l) = numCalls l + 1 := by
  simp [numCalls, List.filter_cons]

@[simp]
theorem numCalls_cons_observer (k : Nat) (l : List RetryStep) :
    numCalls (RetryStep.observer k :: l) = numCalls l := by
  simp [numCalls, List.filter_cons]

@[simp]
theorem numCalls_cons_wait (k ms : Nat) (l : List RetryStep) :
    numCalls (RetryStep.wait k ms :: l) = numCalls l := by
  simp [numCalls, List.filter_cons]

@[simp]
theorem numCalls_append (l1 l2 : List RetryStep) :
    numCalls (l1 ++ l2) = numCalls l1 + numCalls l2 := by
  simp [numCalls, List.filter_append]

/-- Unfolding of one iteration of the retry loop. -/
theorem withRetryGo_succ {α : Type} (fn : Nat → Except String α)
    (maxA : Nat) (aS aW : Nat → Bool) (a f : Nat) (le : String) :
    withRetryGo fn maxA aS aW a (f+1) le =
      (if aS a then ([], Except.error "Connection cancelled")
       else
         match fn a with
         | Except.ok v => ([RetryStep.attemptCall a], Except.ok v)
         | Except.error e =>
           if isFatalError e then ([RetryStep.attemptCall a], Except.error e)
           else if a < maxA then
             if aW a then
               ([RetryStep.attemptCall a, RetryStep.observer a],
                Except.error "Connection cancelled")
             else
               let r := withRetryGo fn maxA aS aW (a+1) f e
               (RetryStep.attemptCall a :: RetryStep.observer a ::
                  RetryStep.wait a (retryDelays.getD (a-1) 0) :: r.1, r.2)
           else
             let r := withRetryGo fn maxA aS aW (a+1) f e
             (RetryStep.attemptCall a :: r.1, r.2)) := by
  rfl

theorem withRetryGo_zero {α : Type} (fn : Nat → Except String α)
    (maxA : Nat) (aS aW : Nat → Bool) (a : Nat) (le : String) :
    withRetryGo fn maxA aS aW a 0 le = ([], Except.error le) := rfl

theorem failsTransient_elim {α : Type} {fn : Nat → Except String α} {j : Nat}
    (h : failsTransient fn j = true) :
    ∃ e, fn j = Except.error e ∧ isFatalError e = false := by
  cases hfn : fn j with
  | ok v => rw [failsTransient, hfn] at h; simp at h
  | error e =>
    rw [failsTransient, hfn] at h
    simp only [Bool.not_eq_true'] at h
    exact ⟨e, rfl, h⟩

/-- The number of operation invocations is bounded by the remaining
fuel, whatever the abort environment does. -/
theorem withRetryGo_numCalls_le {α : Type} (fn : Nat → Except String α)
    (maxA : Nat) (aS aW : Nat → Bool) :
    ∀ (fuel a : Nat) (le : String),
      numCalls (withRetryGo fn maxA aS aW a fuel le).1 ≤ fuel := by
  intro fuel
  induction fuel with
  | zero => intro a le; simp [withRetryGo_zero]
  | succ f ih =>
    intro a le
    rw [withRetryGo_succ]
    by_cases haS : aS a = true
    · simp [haS]
    · rw [Bool.not_eq_true] at haS
      simp only [haS, Bool.false_eq_true, if_false]
      cases hfn : fn a with
      | ok v => simp
      | error e =>
        by_cases hfat : isFatalError e = true
        · simp [hfat]
        · rw [Bool.not_eq_true] at hfat
          simp only [hfat, Bool.false_eq_true, if_false]
          by_cases hlt : a < maxA
          · simp only [hlt, if_true]
            by_cases haW : aW a = true
            · simp [haW]
            · rw [Bool.not_eq_true] at haW
              simp only [haW, Bool.false_eq_true, if_false]
              have := ih (a+1) e
              simp only [numCalls_cons_call, numCalls_cons_observer,
                numCalls_cons_wait]
              omega
          · simp only [hlt, if_false]
            have := ih (a+1) e
            simp only [numCalls_cons_call]
            omega

/-- Reaching attempt `a + n` after `n` transiently failing, unaborted
attempts: the execution from attempt `a` is a completed prefix of
calls/observers/waits (containing exactly `n` invocations, all about
attempts before `a + n`) followed by the execution from attempt
`a + n`. -/
theorem withRetryGo_reach {α : Type} (fn : Nat → Except String α)
    (maxA : Nat) (aS aW : Nat → Bool) :
    ∀ (n a fuel : Nat) (le : String), n ≤ fuel → a + n ≤ maxA →
      (∀ j, a ≤ j → j < a + n →
        failsTransient fn j = true ∧ aS j = false ∧ aW j = false) →
      ∃ pre le2,
        withRetryGo fn maxA aS aW a fuel le
          = (pre ++ (withRetryGo fn maxA aS aW (a + n) (fuel - n) le2).1,
             (withRetryGo fn maxA aS aW (a + n) (fuel - n) le2).2) ∧
        numCalls pre = n ∧ ∀ s ∈ pre, s.idx < a + n := by
  intro n
  induction n with
  | zero =>
    intro a fuel le _ _ _
    exact ⟨[], le, by simp, rfl, by simp⟩
  | succ m ih =>
    intro a fuel le hfuel hbound hrun
    obtain ⟨f, rfl⟩ : ∃ f, fuel = f + 1 := ⟨fuel - 1, by omega⟩
    obtain ⟨htrans, haS, haW⟩ := hrun a (le_refl a) (by omega)
    obtain ⟨e, hfn, hfat⟩ := failsTransient_elim htrans
    have hlt : a < maxA := by omega
    have hstep : withRetryGo fn maxA aS aW a (f+1) le
        = (RetryStep.attemptCall a :: RetryStep.observer a ::
             RetryStep.wait a (retryDelays.getD (a-1) 0) ::
             (withRetryGo fn maxA aS aW (a+1) f e).1,
           (withRetryGo fn maxA aS aW (a+1) f e).2) := by
      rw [withRetryGo_succ]
      simp [haS, hfn, hfat, hlt, haW]
    obtain ⟨pre, le2, heq, hcalls, hidx⟩ :=
      ih (a+1) f e (by omega) (by omega)
        (fun j h1 h2 => hrun j (by omega) (by omega))
    have e1 : a + 1 + m = a + (m + 1) := by omega
    have e2 : f - m = f + 1 - (m + 1) := by omega
    rw [e1, e2] at heq
    refine ⟨RetryStep.attemptCall a :: RetryStep.observer a ::
      RetryStep.wait a (retryDelays.getD (a-1) 0) :: pre, le2, ?_, ?_, ?_⟩
    · rw [hstep, heq]
      simp
    · simp only [numCalls_cons_call, numCalls_cons_observer,
        numCalls_cons_wait]
      omega
    · intro s hs
      simp only [List.mem_cons] at hs
      rcases hs with rfl | rfl | rfl | hs
      · simp only [RetryStep.idx]; omega
      · simp only [RetryStep.idx]; omega
      · simp only [RetryStep.idx]; omega
      · have := hidx s hs
        rw [e1] at this
        exact this

/-- C1: the retry executor invokes the wrapped operation at most
`maxAttempts` times in total (whatever the abort signal does); the
schedule is the fixed list 500 ms, 1000 ms, 2000 ms; a fatal-classified
failure at attempt `k` (after transient failures) propagates at once —
exactly `k` invocations, no observer call and no backoff wait for
attempt `k`; a transient failure at attempt `k < maxAttempts` produces
the consecutive events "invocation, observer call, wait of
`delays[k-1]`" in that order; and when every attempt fails transiently
the last attempt's error propagates. -/
theorem withRetry_policy_spec {α : Type} (fn : Nat → Except String α)
    (maxA : Nat) :
    (∀ aS aW, numCalls (withRetry fn maxA aS aW).1 ≤ maxA)
  ∧ retryDelays = [500, 1000, 2000]
  ∧ (∀ k e, 1 ≤ k → k ≤ maxA →
      (∀ j, j < k → 1 ≤ j → failsTransient fn j = true) →
      fn k = Except.error e → isFatalError e = true →
      (withRetryNA fn maxA).2 = Except.error e ∧
      numCalls (withRetryNA fn maxA).1 = k ∧
      RetryStep.observer k ∉ (withRetryNA fn maxA).1 ∧
      ∀ d, RetryStep.wait k d ∉ (withRetryNA fn maxA).1)
  ∧ (∀ k, 1 ≤ k → k < maxA →
      (∀ j, j ≤ k → 1 ≤ j → failsTransient fn j = true) →
      ∃ pre post, (withRetryNA fn maxA).1
        = pre ++ RetryStep.attemptCall k :: RetryStep.observer k ::
            RetryStep.wait k (retryDelays.getD (k-1) 0) :: post)
  ∧ (∀ e, 1 ≤ maxA →
      (∀ j, j < maxA → 1 ≤ j → failsTransient fn j = true) →
      fn maxA = Except.error e → isFatalError e = false →
      (withRetryNA fn maxA).2 = Except.error e) := by
  refine ⟨?_, rfl, ?_, ?_, ?_⟩
  · intro aS aW
    exact withRetryGo_numCalls_le fn maxA aS aW maxA 1 "Unknown error"
  · -- fatal failure at attempt k
    intro k e hk1 hk2 hprev hfn hfat
    obtain ⟨pre, le2, heq, hcalls, hidx⟩ :=
      withRetryGo_reach fn maxA noAbort noAbort (k-1) 1 maxA "Unknown error"
        (by omega) (by omega)
        (fun j h1 h2 => ⟨hprev j (by omega) h1, rfl, rfl⟩)
    have hk : 1 + (k - 1) = k := by omega
    obtain ⟨f, hf⟩ : ∃ f, maxA - (k - 1) = f + 1 := ⟨maxA - k, by omega⟩
    rw [hk] at hidx
    rw [hk, hf] at heq
    have htail : withRetryGo fn maxA noAbort noAbort k (f+1) le2
        = ([RetryStep.attemptCall k], Except.error e) := by
      rw [withRetryGo_succ]
      simp [noAbort, hfn, hfat]
    rw [htail] at heq
    have hmain : (withRetryNA fn maxA)
        = (pre ++ [RetryStep.attemptCall k], Except.error e) := heq
    refine ⟨?_, ?_, ?_, ?_⟩
    · rw [hmain]
    · rw [hmain]
      simp only [numCalls_append, numCalls_cons_call, numCalls_nil]
      omega
    · rw [hmain]
      simp only [List.mem_append, List.mem_cons, List.not_mem_nil, or_false,
        not_or]
      constructor
      · intro hmem
        have := hidx _ hmem
        simp only [RetryStep.idx] at this
        omega
      · intro hEq
        exact RetryStep.noConfusion hEq
    · intro d
      rw [hmain]
      simp only [List.mem_append, List.mem_cons, List.not_mem_nil, or_false,
        not_or]
      constructor
      · intro hmem
        have := hidx _ hmem
        simp only [RetryStep.idx] at this
        omega
      · intro hEq
        exact RetryStep.noConfusion hEq
  · -- transient failure at attempt k < maxAttempts
    intro k hk1 hklt hprev
    obtain ⟨pre, le2, heq, hcalls, hidx⟩ :=
      withRetryGo_reach fn maxA noAbort noAbort (k-1) 1 maxA "Unknown error"
        (by omega) (by omega)
        (fun j h1 h2 => ⟨hprev j (by omega) h1, rfl, rfl⟩)
    have hk : 1 + (k - 1) = k := by omega
    obtain ⟨f, hf⟩ : ∃ f, maxA - (k - 1) = f + 1 := ⟨maxA - k, by omega⟩
    rw [hk, hf] at heq
    obtain ⟨e, hfn, hfat⟩ := failsTransient_elim (hprev k (le_refl k) hk1)
    have htail : withRetryGo fn maxA noAbort noAbort k (f+1) le2
        = (RetryStep.attemptCall k :: RetryStep.observer k ::
             RetryStep.wait k (retryDelays.getD (k-1) 0) ::
             (withRetryGo fn maxA noAbort noAbort (k+1) f e).1,
           (withRetryGo fn maxA noAbort noAbort (k+1) f e).2) := by
      rw [withRetryGo_succ]
      simp [noAbort, hfn, hfat, hklt]
    rw [htail] at heq
    refine ⟨pre, (withRetryGo fn maxA noAbort noAbort (k+1) f e).1, ?_⟩
    show (withRetryGo fn maxA noAbort noAbort 1 maxA "Unknown error").1 = _
    rw [heq]
  · -- every attempt fails transiently: the last error propagates
    intro e hmaxA hprev hfn hfat
    obtain ⟨pre, le2, heq, hcalls, hidx⟩ :=
      withRetryGo_reach fn maxA noAbort noAbort (maxA-1) 1 maxA "Unknown error"
        (by omega) (by omega)
        (fun j h1 h2 => ⟨hprev j (by omega) h1, rfl, rfl⟩)
    have hk : 1 + (maxA - 1) = maxA := by omega
    have hf : maxA - (maxA - 1) = 0 + 1 := by omega
    rw [hk, hf] at heq
    have htail : withRetryGo fn maxA noAbort noAbort maxA (0+1) le2
        = (RetryStep.attemptCall maxA ::
             (withRetryGo fn maxA noAbort noAbort (maxA+1) 0 e).1,
           (withRetryGo fn maxA noAbort noAbort (maxA+1) 0 e).2) := by
      rw [withRetryGo_succ]
      simp [noAbort, hfn, hfat]
    rw [htail] at heq
    show (withRetryGo fn maxA noAbort noAbort 1 maxA "Unknown error").2
      = Except.error e
    rw [heq, withRetryGo_zero]

/-- Witness for C1: three transient failures with `maxAttempts = 3`
propagate the operation's last error. -/
theorem withRetry_policy_spec_witness :
    (withRetryNA exhaustFn 3).2 = Except.error "network timeout" :=
  (withRetry_policy_spec exhaustFn 3).2.2.2.2 "network timeout"
    (by decide) (by decide) rfl (by decide)

/-- C2: when the cancellation signal is already set at the loop-top
check before attempt `k` (after transiently failing, unaborted earlier
attempts), `withRetry` throws the distinguished 'Connection cancelled'
error without invoking the operation again; and when the signal fires
during the backoff wait that follows a transient failure of attempt
`k < maxAttempts`, it throws 'Connection cancelled' as well — in
neither case does the underlying operation's last error escape. -/
theorem withRetry_cancel_spec {α : Type} (fn : Nat → Except String α)
    (maxA : Nat) (aS aW : Nat → Bool) :
    (∀ k, 1 ≤ k → k ≤ maxA →
      (∀ j, j < k → 1 ≤ j →
        failsTransient fn j = true ∧ aS j = false ∧ aW j = false) →
      aS k = true →
      (withRetry fn maxA aS aW).2 = Except.error "Connection cancelled" ∧
      numCalls (withRetry fn maxA aS aW).1 = k - 1)
  ∧ (∀ k e, 1 ≤ k → k < maxA →
      (∀ j, j < k → 1 ≤ j →
        failsTransient fn j = true ∧ aS j = false ∧ aW j = false) →
      aS k = false → fn k = Except.error e → isFatalError e = false →
      aW k = true →
      (withRetry fn maxA aS aW).2 = Except.error "Connection cancelled") := by
  constructor
  · intro k hk1 hk2 hprev haS
    obtain ⟨pre, le2, heq, hcalls, hidx⟩ :=
      withRetryGo_reach fn maxA aS aW (k-1) 1 maxA "Unknown error"
        (by omega) (by omega)
        (fun j h1 h2 => hprev j (by omega) h1)
    have hk : 1 + (k - 1) = k := by omega
    obtain ⟨f, hf⟩ : ∃ f, maxA - (k - 1) = f + 1 := ⟨maxA - k, by omega⟩
    rw [hk, hf] at heq
    have htail : withRetryGo fn maxA aS aW k (f+1) le2
        = ([], Except.error "Connection cancelled") := by
      rw [withRetryGo_succ]
      simp [haS]
    rw [htail] at heq
    have hmain : (withRetry fn maxA aS aW)
        = (pre ++ [], Except.error "Connection cancelled") := heq
    constructor
    · rw [hmain]
    · rw [hmain]
      simp only [List.append_nil]
      omega
  · intro k e hk1 hklt hprev haS hfn hfat haW
    obtain ⟨pre, le2, heq, hcalls, hidx⟩ :=
      withRetryGo_reach fn maxA aS aW (k-1) 1 maxA "Unknown error"
        (by omega) (by omega)
        (fun j h1 h2 => hprev j (by omega) h1)
    have hk : 1 + (k - 1) = k := by omega
    obtain ⟨f, hf⟩ : ∃ f, maxA - (k - 1) = f + 1 := ⟨maxA - k, by omega⟩
    rw [hk, hf] at heq
    have htail : withRetryGo fn maxA aS aW k (f+1) le2
        = ([RetryStep.attemptCall k, RetryStep.observer k],
           Except.error "Connection cancelled") := by
      rw [withRetryGo_succ]
      simp [haS, hfn, hfat, hklt, haW]
    rw [htail] at heq
    exact congrArg Prod.snd heq

/-- Witness for C2: a signal that is aborted at the start of attempt 2
(after one transient failure) yields the cancelled error with a single
invocation performed. -/
theorem withRetry_cancel_spec_witness :
    (withRetry exhaustFn 3 cancelAtTwo noAbort).2
        = Except.error "Connection cancelled" ∧
    numCalls (withRetry exhaustFn 3 cancelAtTwo noAbort).1 = 1 :=
  (withRetry_cancel_spec exhaustFn 3 cancelAtTwo noAbort).1 2
    (by decide) (by decide) (by decide) (by decide)

/-! ## The conversation log store -/

/-- C10: every `saveInquiry` call appends the new record and truncates
the stored list to its last 200 entries — the result never exceeds 200
records, it is a suffix of the appended list (only older records are
discarded), it equals the appended list while that list fits in 200,
and holds exactly 200 records once the store is full. -/
theorem saveInquiry_retention_spec (inquiries : List ConversationLog)
    (log : ConversationLog) :
    (saveInquiryStore inquiries log).length ≤ 200
  ∧ saveInquiryStore inquiries log <:+ inquiries ++ [log]
  ∧ (inquiries.length + 1 ≤ 200 →
      saveInquiryStore inquiries log = inquiries ++ [log])
  ∧ (200 ≤ inquiries.length →
      (saveInquiryStore inquiries log).length = 200) := by
  refine ⟨?_, ?_, ?_, ?_⟩
  · simp only [saveInquiryStore, jsSliceLast, List.length_drop,
      List.length_append, List.length_cons, List.length_nil]
    omega
  · exact List.drop_suffix _ _
  · intro h
    have h0 : (inquiries ++ [log]).length - 200 = 0 := by
      simp only [List.length_append, List.length_cons, List.length_nil]
      omega
    rw [saveInquiryStore, jsSliceLast, h0, List.drop_zero]
  · intro h
    simp only [saveInquiryStore, jsSliceLast, List.length_drop,
      List.length_append, List.length_cons, List.length_nil]
    omega

/-- Witness for C10: appending to a 3-record store keeps all records. -/
theorem saveInquiry_retention_spec_witness :
    saveInquiryStore (List.replicate 3 sampleLog) sampleLog
      = List.replicate 3 sampleLog ++ [sampleLog] :=
  (saveInquiry_retention_spec (List.replicate 3 sampleLog) sampleLog).2.2.1
    (by simp)

/-! ## Lemmas about the tool-call dispatcher -/

/-- The switch body of the dispatcher only touches the active property,
the history and the two visibility flags: every other field of the state
is unchanged, whichever tool runs and however the collaborators answer. -/
theorem toolSwitch_preserves (sf : String → Except String (List Property))
    (af : String → List String) (st : AppModel) (fc : FnCall) :
    (toolSwitch sf af st fc).1.sessionUp = st.sessionUp ∧
    (toolSwitch sf af st fc).1.sentResponses = st.sentResponses ∧
    (toolSwitch sf af st fc).1.guardTimer = st.guardTimer ∧
    (toolSwitch sf af st fc).1.isProcessing = st.isProcessing ∧
    (toolSwitch sf af st fc).1.toolsUsed = st.toolsUsed ∧
    (toolSwitch sf af st fc).1.flushed = st.flushed ∧
    (toolSwitch sf af st fc).1.sources = st.sources ∧
    (toolSwitch sf af st fc).1.nextStartTime = st.nextStartTime ∧
    (toolSwitch sf af st fc).1.currentInput = st.currentInput ∧
    (toolSwitch sf af st fc).1.currentOutput = st.currentOutput ∧
    (toolSwitch sf af st fc).1.turnStartTime = st.turnStartTime ∧
    (toolSwitch sf af st fc).1.transcript = st.transcript ∧
    (toolSwitch sf af st fc).1.nextSourceId = st.nextSourceId := by
  rw [toolSwitch.eq_def]
  dsimp only
  split <;> (repeat' split) <;> simp_all

@[simp]
theorem toolSwitch_sessionUp (sf : String → Except String (List Property))
    (af : String → List String) (st : AppModel) (fc : FnCall) :
    (toolSwitch sf af st fc).1.sessionUp = st.sessionUp :=
  (toolSwitch_preserves sf af st fc).1

@[simp]
theorem toolSwitch_sentResponses (sf : String → Except String (List Property))
    (af : String → List String) (st : AppModel) (fc : FnCall) :
    (toolSwitch sf af st fc).1.sentResponses = st.sentResponses :=
  (toolSwitch_preserves sf af st fc).2.1

@[simp]
theorem toolSwitch_guardTimer (sf : String → Except String (List Property))
    (af : String → List String) (st : AppModel) (fc : FnCall) :
    (toolSwitch sf af st fc).1.guardTimer = st.guardTimer :=
  (toolSwitch_preserves sf af st fc).2.2.1

@[simp]
theorem toolSwitch_isProcessing (sf : String → Except String (List Property))
    (af : String → List String) (st : AppModel) (fc : FnCall) :
    (toolSwitch sf af st fc).1.isProcessing = st.isProcessing :=
  (toolSwitch_preserves sf af st fc).2.2.2.1

@[simp]
theorem toolSwitch_toolsUsed (sf : String → Except String (List Property))
    (af : String → List String) (st : AppModel) (fc : FnCall) :
    (toolSwitch sf af st fc).1.toolsUsed = st.toolsUsed :=
  (toolSwitch_preserves sf af st fc).2.2.2.2.1

@[simp]
theorem toolSwitch_flushed (sf : String → Except String (List Property))
    (af : String → List String) (st : AppModel) (fc : FnCall) :
    (toolSwitch sf af st fc).1.flushed = st.flushed :=
  (toolSwitch_preserves sf af st fc).2.2.2.2.2.1

@[simp]
theorem toolSwitch_sources (sf : String → Except String (List Property))
    (af : String → List String) (st : AppModel) (fc : FnCall) :
    (toolSwitch sf af st fc).1.sources = st.sources :=
  (toolSwitch_preserves sf af st fc).2.2.2.2.2.2.1

@[simp]
theorem toolSwitch_nextStartTime (sf : String → Except String (List Property))
    (af : String → List String) (st : AppModel) (fc : FnCall) :
    (toolSwitch sf af st fc).1.nextStartTime = st.nextStartTime :=
  (toolSwitch_preserves sf af st fc).2.2.2.2.2.2.2.1

@[simp]
theorem toolSwitch_currentInput (sf : String → Except String (List Property))
    (af : String → List String) (st : AppModel) (fc : FnCall) :
    (toolSwitch sf af st fc).1.currentInput = st.currentInput :=
  (toolSwitch_preserves sf af st fc).2.2.2.2.2.2.2.2.1

@[simp]
theorem toolSwitch_currentOutput (sf : String → Except String (List Property))
    (af : String → List String) (st : AppModel) (fc : FnCall) :
    (toolSwitch sf af st fc).1.currentOutput = st.currentOutput :=
  (toolSwitch_preserves sf af st fc).2.2.2.2.2.2.2.2.2.1

@[simp]
theorem toolSwitch_turnStartTime (sf : String → Except String (List Property))
    (af : String → List String) (st : AppModel) (fc : FnCall) :
    (toolSwitch sf af st fc).1.turnStartTime = st.turnStartTime :=
  (toolSwitch_preserves sf af st fc).2.2.2.2.2.2.2.2.2.2.1

@[simp]
theorem toolSwitch_transcript (sf : String → Except String (List Property))
    (af : String → List String) (st : AppModel) (fc : FnCall) :
    (toolSwitch sf af st fc).1.transcript = st.transcript :=
  (toolSwitch_preserves sf af st fc).2.2.2.2.2.2.2.2.2.2.2.1

@[simp]
theorem toolSwitch_nextSourceId (sf : String → Except String (List Property))
    (af : String → List String) (st : AppModel) (fc : FnCall) :
    (toolSwitch sf af st fc).1.nextSourceId = st.nextSourceId :=
  (toolSwitch_preserves sf af st fc).2.2.2.2.2.2.2.2.2.2.2.2

@[simp]
theorem dispatchRespond_guardTimer
    (sf : String → Except String (List Property))
    (af : String → List String) (st : AppModel) (fc : FnCall) :
    (dispatchRespond sf af st fc).guardTimer = some 100 := by
  unfold dispatchRespond
  dsimp only

@[simp]
theorem dispatchRespond_isProcessing
    (sf : String → Except String (List Property))
    (af : String → List String) (st : AppModel) (fc : FnCall) :
    (dispatchRespond sf af st fc).isProcessing = st.isProcessing := by
  unfold dispatchRespond
  dsimp only
  split <;> simp

@[simp]
theorem dispatchRespond_sessionUp
    (sf : String → Except String (List Property))
    (af : String → List String) (st : AppModel) (fc : FnCall) :
    (dispatchRespond sf af st fc).sessionUp = st.sessionUp := by
  unfold dispatchRespond
  dsimp only
  split <;> simp

@[simp]
theorem dispatchRespond_flushed
    (sf : String → Except String (List Property))
    (af : String → List String) (st : AppModel) (fc : FnCall) :
    (dispatchRespond sf af st fc).flushed = st.flushed := by
  unfold dispatchRespond
  dsimp only
  split <;> simp

@[simp]
theorem dispatchRespond_sources
    (sf : String → Except String (List Property))
    (af : String → List String) (st : AppModel) (fc : FnCall) :
    (dispatchRespond sf af st fc).sources = st.sources := by
  unfold dispatchRespond
  dsimp only
  split <;> simp

@[simp]
theorem dispatchRespond_nextStartTime
    (sf : String → Except String (List Property))
    (af : String → List String) (st : AppModel) (fc : FnCall) :
    (dispatchRespond sf af st fc).nextStartTime = st.nextStartTime := by
  unfold dispatchRespond
  dsimp only
  split <;> simp

@[simp]
theorem dispatchRespond_nextSourceId
    (sf : String → Except String (List Property))
    (af : String → List String) (st : AppModel) (fc : FnCall) :
    (dispatchRespond sf af st fc).nextSourceId = st.nextSourceId := by
  unfold dispatchRespond
  dsimp only
  split <;> simp

@[simp]
theorem dispatchRespond_currentInput
    (sf : String → Except String (List Property))
    (af : String → List String) (st : AppModel) (fc : FnCall) :
    (dispatchRespond sf af st fc).currentInput = st.currentInput := by
  unfold dispatchRespond
  dsimp only
  split <;> simp

@[simp]
theorem dispatchRespond_currentOutput
    (sf : String → Except String (List Property))
    (af : String → List String) (st : AppModel) (fc : FnCall) :
    (dispatchRespond sf af st fc).currentOutput = st.currentOutput := by
  unfold dispatchRespond
  dsimp only
  split <;> simp

@[simp]
theorem dispatchRespond_turnStartTime
    (sf : String → Except String (List Property))
    (af : String → List String) (st : AppModel) (fc : FnCall) :
    (dispatchRespond sf af st fc).turnStartTime = st.turnStartTime := by
  unfold dispatchRespond
  dsimp only
  split <;> simp

@[simp]
theorem dispatchRespond_transcript
    (sf : String → Except String (List Property))
    (af : String → List String) (st : AppModel) (fc : FnCall) :
    (dispatchRespond sf af st fc).transcript = st.transcript := by
  unfold dispatchRespond
  dsimp only
  split <;> simp

@[simp]
theorem dispatchRespond_toolsUsed
    (sf : String → Except String (List Property))
    (af : String → List String) (st : AppModel) (fc : FnCall) :
    (dispatchRespond sf af st fc).toolsUsed = st.toolsUsed := by
  unfold dispatchRespond
  dsimp only
  split <;> simp

@[simp]
theorem dispatchRespond_sentResponses
    (sf : String → Except String (List Property))
    (af : String → List String) (st : AppModel) (fc : FnCall) :
    (dispatchRespond sf af st fc).sentResponses
      = if st.sessionUp then
          st.sentResponses ++ [(fc.id, (toolSwitch sf af st fc).2)]
        else st.sentResponses := by
  unfold dispatchRespond
  dsimp only
  split <;> simp_all

@[simp]
theorem dispatchRespond_activeProperty
    (sf : String → Except String (List Property))
    (af : String → List String) (st : AppModel) (fc : FnCall) :
    (dispatchRespond sf af st fc).activeProperty
      = (toolSwitch sf af st fc).1.activeProperty := by
  unfold dispatchRespond
  dsimp only
  split <;> simp

@[simp]
theorem dispatchRespond_propertyHistory
    (sf : String → Except String (List Property))
    (af : String → List String) (st : AppModel) (fc : FnCall) :
    (dispatchRespond sf af st fc).propertyHistory
      = (toolSwitch sf af st fc).1.propertyHistory := by
  unfold dispatchRespond
  dsimp only
  split <;> simp

@[simp]
theorem dispatchRespond_showGallery
    (sf : String → Except String (List Property))
    (af : String → List String) (st : AppModel) (fc : FnCall) :
    (dispatchRespond sf af st fc).showGallery
      = (toolSwitch sf af st fc).1.showGallery := by
  unfold dispatchRespond
  dsimp only
  split <;> simp

/-- A tool call arriving while the guard is held returns with no effect
at all (src/types.ts lines 943-946). -/
theorem handleToolCall_busy (sf : String → Except String (List Property))
    (af : String → List String) (st : AppModel) (fc : FnCall)
    (h : st.isProcessing = true) :
    handleToolCall sf af st fc = st := by
  unfold handleToolCall
  simp [h]

/-- Whether dropped or effected, a tool call never touches playback
state, transcript accumulation, the flush log or the session refs. -/
theorem handleToolCall_preserves (sf : String → Except String (List Property))
    (af : String → List String) (st : AppModel) (fc : FnCall) :
    (handleToolCall sf af st fc).sources = st.sources ∧
    (handleToolCall sf af st fc).nextStartTime = st.nextStartTime ∧
    (handleToolCall sf af st fc).nextSourceId = st.nextSourceId ∧
    (handleToolCall sf af st fc).flushed = st.flushed ∧
    (handleToolCall sf af st fc).currentInput = st.currentInput ∧
    (handleToolCall sf af st fc).currentOutput = st.currentOutput ∧
    (handleToolCall sf af st fc).sessionUp = st.sessionUp ∧
    (handleToolCall sf af st fc).turnStartTime = st.turnStartTime ∧
    (handleToolCall sf af st fc).transcript = st.transcript := by
  by_cases h : st.isProcessing = true
  · rw [handleToolCall_busy sf af st fc h]
    exact ⟨rfl, rfl, rfl, rfl, rfl, rfl, rfl, rfl, rfl⟩
  · rw [Bool.not_eq_true] at h
    unfold handleToolCall
    simp [h, apply_ite AppModel.sources, apply_ite AppModel.nextStartTime,
      apply_ite AppModel.nextSourceId, apply_ite AppModel.flushed,
      apply_ite AppModel.currentInput, apply_ite AppModel.currentOutput,
      apply_ite AppModel.sessionUp, apply_ite AppModel.turnStartTime,
      apply_ite AppModel.transcript]

/-- Lemma `handleToolCall_preserves`, folded over a batch of tool calls. -/
theorem foldl_handleToolCall_preserves
    (sf : String → Except String (List Property))
    (af : String → List String) (fcs : List FnCall) : ∀ st : AppModel,
    (fcs.foldl (handleToolCall sf af) st).sources = st.sources ∧
    (fcs.foldl (handleToolCall sf af) st).nextStartTime = st.nextStartTime ∧
    (fcs.foldl (handleToolCall sf af) st).flushed = st.flushed ∧
    (fcs.foldl (handleToolCall sf af) st).currentInput = st.currentInput ∧
    (fcs.foldl (handleToolCall sf af) st).currentOutput = st.currentOutput ∧
    (fcs.foldl (handleToolCall sf af) st).sessionUp = st.sessionUp ∧
    (fcs.foldl (handleToolCall sf af) st).turnStartTime = st.turnStartTime ∧
    (fcs.foldl (handleToolCall sf af) st).transcript = st.transcript := by
  induction fcs with
  | nil =>
    intro st
    exact ⟨rfl, rfl, rfl, rfl, rfl, rfl, rfl, rfl⟩
  | cons fc rest ih =>
    intro st
    obtain ⟨a1, a2, _, a4, a5, a6, a7, a8, a9⟩ :=
      handleToolCall_preserves sf af st fc
    obtain ⟨b1, b2, b3, b4, b5, b6, b7, b8⟩ := ih (handleToolCall sf af st fc)
    rw [List.foldl_cons]
    exact ⟨b1.trans a1, b2.trans a2, b3.trans a4, b4.trans a5, b5.trans a6,
      b6.trans a7, b7.trans a8, b8.trans a9⟩

/-- A batch of tool calls folded over a state whose guard is held does
nothing. -/
theorem foldl_handleToolCall_busy
    (sf : String → Except String (List Property))
    (af : String → List String) (fcs : List FnCall) : ∀ st : AppModel,
    st.isProcessing = true → fcs.foldl (handleToolCall sf af) st = st := by
  induction fcs with
  | nil => intro st _; rfl
  | cons fc rest ih =>
    intro st h
    rw [List.foldl_cons, handleToolCall_busy sf af st fc h, ih st h]

/-- C6: the dispatcher never effects two invocations concurrently.  An
invocation arriving while the guard is held is dropped with no state
mutation at all — in particular no history append, no visibility-flag
change, no tools-used entry and no tool response; an accepted invocation
holds the guard when it completes (until the release timer fires); a
batch of invocations folded over a busy dispatcher does nothing; and of
a batch arriving at a free dispatcher only the first invocation has any
effect. -/
theorem dispatcher_guard_spec :
    (∀ (sf : String → Except String (List Property))
       (af : String → List String) (st : AppModel) (fc : FnCall),
       st.isProcessing = true →
       handleToolCall sf af st fc = st ∧
       (handleToolCall sf af st fc).propertyHistory = st.propertyHistory ∧
       (handleToolCall sf af st fc).showGallery = st.showGallery ∧
       (handleToolCall sf af st fc).showLeadForm = st.showLeadForm ∧
       (handleToolCall sf af st fc).toolsUsed = st.toolsUsed ∧
       (handleToolCall sf af st fc).sentResponses = st.sentResponses)
  ∧ (∀ (sf : String → Except String (List Property))
       (af : String → List String) (st : AppModel) (fc : FnCall),
       st.isProcessing = false →
       (handleToolCall sf af st fc).isProcessing = true)
  ∧ (∀ (sf : String → Except String (List Property))
       (af : String → List String) (st : AppModel) (fcs : List FnCall),
       st.isProcessing = true →
       fcs.foldl (handleToolCall sf af) st = st)
  ∧ (∀ (sf : String → Except String (List Property))
       (af : String → List String) (st : AppModel) (fc : FnCall)
       (fcs : List FnCall),
       st.isProcessing = false →
       (fc :: fcs).foldl (handleToolCall sf af) st
         = handleToolCall sf af st fc) := by
  have haccept : ∀ (sf : String → Except String (List Property))
      (af : String → List String) (st : AppModel) (fc : FnCall),
      st.isProcessing = false →
      (handleToolCall sf af st fc).isProcessing = true := by
    intro sf af st fc h
    unfold handleToolCall
    simp [h, apply_ite AppModel.isProcessing]
  refine ⟨?_, haccept, ?_, ?_⟩
  · intro sf af st fc h
    rw [handleToolCall_busy sf af st fc h]
    exact ⟨rfl, rfl, rfl, rfl, rfl, rfl⟩
  · intro sf af st fcs h
    exact foldl_handleToolCall_busy sf af fcs st h
  · intro sf af st fc fcs h
    rw [List.foldl_cons]
    exact foldl_handleToolCall_busy sf af fcs _ (haccept sf af st fc h)

/-- Witness for C6: a second call arriving while the dispatcher is busy
leaves the state exactly as it was. -/
theorem dispatcher_guard_spec_witness :
    handleToolCall noSearch noAlts busyModel searchCall = busyModel :=
  (dispatcher_guard_spec.1 noSearch noAlts busyModel searchCall rfl).1

/-- C8: an invocation accepted by the guard always results in exactly
one textual response sent back over the connection, correlated by the
invocation id — even when the tool's internal effect fails, in which
case the response is the fixed apology string (the failure is consumed,
never propagated; the model is a total function) — and the guard is
released afterwards through the scheduled 100 ms cool-down timer. -/
theorem dispatcher_response_spec
    (sf : String → Except String (List Property))
    (af : String → List String) (st : AppModel) (fc : FnCall)
    (hguard : st.isProcessing = false) (hsess : st.sessionUp = true) :
    (∃ resp, (handleToolCall sf af st fc).sentResponses
        = st.sentResponses ++ [(fc.id, resp)])
  ∧ (∀ e, fc.name = "search_property" → sf fc.query = Except.error e →
      (handleToolCall sf af st fc).sentResponses
        = st.sentResponses ++ [(fc.id, "حدث خطأ في البحث. حاول مرة ثانية.")])
  ∧ (handleToolCall sf af st fc).guardTimer = some 100
  ∧ (handleToolCall sf af st fc).isProcessing = true
  ∧ (fireGuardTimer (handleToolCall sf af st fc)).isProcessing = false := by
  refine ⟨?_, ?_, ?_, ?_, rfl⟩
  · exact ⟨_, by
      unfold handleToolCall
      simp only [hguard, Bool.false_eq_true, if_false]
      simp [hsess, apply_ite AppModel.sessionUp,
        apply_ite AppModel.sentResponses]
      rfl⟩
  · intro e hname herr
    unfold handleToolCall
    simp [hguard, hsess, hname, herr, toolSwitch,
      apply_ite AppModel.sessionUp, apply_ite AppModel.sentResponses]
  · unfold handleToolCall
    simp [hguard]
  · unfold handleToolCall
    simp [hguard, apply_ite AppModel.isProcessing]

/-- Witness for C8: a search call whose backend promise rejects still
sends the apology response, correlated by the call id. -/
theorem dispatcher_response_spec_witness :
    (handleToolCall failingSearch noAlts historyOneModel searchCall).sentResponses
      = historyOneModel.sentResponses
          ++ [("call-9", "حدث خطأ في البحث. حاول مرة ثانية.")] :=
  (dispatcher_response_spec failingSearch noAlts historyOneModel searchCall
      rfl rfl).2.1 "search backend down" rfl rfl

/-- Branch-free form of an accepted tool call: closing the lead form
conditionally is the same as and-ing its flag with the tool not being a
search-type tool. -/
theorem handleToolCall_eq (sf : String → Except String (List Property))
    (af : String → List String) (st : AppModel) (fc : FnCall)
    (h : st.isProcessing = false) :
    handleToolCall sf af st fc
      = dispatchRespond sf af
          {st with isProcessing := true,
                   toolsUsed := st.toolsUsed ++ [fc.name],
                   showLeadForm := st.showLeadForm
                     && !(fc.name == "search_property"
                          || fc.name == "show_previous_property")} fc := by
  unfold handleToolCall
  simp only [h, Bool.false_eq_true, if_false]
  by_cases hc : (fc.name == "search_property"
      || fc.name == "show_previous_property") = true
  · by_cases hlf : st.showLeadForm = true
    · simp [hc, hlf]
    · rw [Bool.not_eq_true] at hlf
      simp [hc, hlf]
  · rw [Bool.not_eq_true] at hc
    simp [hc]

/-- The `show_previous_property` branch with a coalesced index inside
the 1-based range selects `history[j-1]`, opens the gallery and answers
with the success message. -/
theorem toolSwitch_showPrev_inRange
    (sf : String → Except String (List Property))
    (af : String → List String) (st2 : AppModel) (fc : FnCall) (j : Int)
    (hname : fc.name = "show_previous_property")
    (hj : coalesceIndex fc.index = j) (h1 : 1 ≤ j)
    (h2 : j ≤ (st2.propertyHistory.length : Int)) :
    toolSwitch sf af st2 fc
      = ({st2 with
            activeProperty :=
              some (st2.propertyHistory.getD (j-1).toNat defaultProperty),
            showGallery := true},
         showPrevSuccessMsg j
           (st2.propertyHistory.getD (j-1).toNat defaultProperty).title) := by
  have hcond : 0 ≤ j - 1 ∧ j - 1 < (st2.propertyHistory.length : Int) := by
    omega
  have hjj : j - 1 + 1 = j := by omega
  rw [toolSwitch.eq_def, hname]
  simp [hj, hcond, hjj]

/-- The `show_previous_property` branch with a coalesced index outside
the 1-based range changes nothing and answers with the explanatory
out-of-range message. -/
theorem toolSwitch_showPrev_outOfRange
    (sf : String → Except String (List Property))
    (af : String → List String) (st2 : AppModel) (fc : FnCall) (j : Int)
    (hname : fc.name = "show_previous_property")
    (hj : coalesceIndex fc.index = j)
    (hout : j < 0 ∨ (st2.propertyHistory.length : Int) < j) :
    toolSwitch sf af st2 fc
      = (st2, showPrevOutOfRangeMsg st2.propertyHistory.length) := by
  have hcond : ¬(0 ≤ j - 1 ∧ j - 1 < (st2.propertyHistory.length : Int)) := by
    omega
  rw [toolSwitch.eq_def, hname]
  simp [hj]
  intro h1 h2
  exact absurd ⟨by omega, by omega⟩ hcond

/-- Counterexample to C3 as stated: for a one-element history, the index
0 lies outside `1 ≤ i ≤ 1`, so the claim requires an explanatory result
with no property selected; the code instead coalesces the falsy 0 to 1
(`fc.args.index || 1`), selects `history[0]`, opens the gallery and
reports success. -/
theorem show_previous_zero_counterexample :
    ¬(1 ≤ (0:Int) ∧ (0:Int) ≤ (historyOneModel.propertyHistory.length : Int))
  ∧ (handleToolCall noSearch noAlts historyOneModel showPrevZeroCall).activeProperty
      = some sampleProperty
  ∧ (handleToolCall noSearch noAlts historyOneModel showPrevZeroCall).showGallery
      = true
  ∧ (handleToolCall noSearch noAlts historyOneModel showPrevZeroCall).sentResponses
      = [("call-7", showPrevSuccessMsg 1 sampleProperty.title)] := by
  refine ⟨by decide, ?_, ?_, ?_⟩ <;> decide

/-- C3 (amended): invoking `show_previous_property` with 1-based index
`i` in `1 ≤ i ≤ len(history)` selects `history[i-1]`, opens the gallery
and answers with a success message naming the property; any `i` outside
that range other than `i = 0` leaves the selection and gallery untouched
and answers with the explanatory message stating how many properties
were shown (no error is raised — the model is a total function); the
index `i = 0`, being falsy in JavaScript, is coalesced to 1 by
`fc.args.index || 1` and therefore selects `history[0]` when the history
is non-empty and yields the explanatory message only when the history is
empty. -/
theorem show_previous_property_spec
    (sf : String → Except String (List Property))
    (af : String → List String) (st : AppModel) (fc : FnCall) (i : Int)
    (hguard : st.isProcessing = false) (hsess : st.sessionUp = true)
    (hname : fc.name = "show_previous_property")
    (hidx : fc.index = some i) :
    (1 ≤ i → i ≤ (st.propertyHistory.length : Int) →
      (handleToolCall sf af st fc).activeProperty
          = some (st.propertyHistory.getD (i-1).toNat defaultProperty) ∧
      (handleToolCall sf af st fc).showGallery = true ∧
      (handleToolCall sf af st fc).sentResponses
          = st.sentResponses ++ [(fc.id,
              showPrevSuccessMsg i
                (st.propertyHistory.getD (i-1).toNat defaultProperty).title)])
  ∧ ((i < 0 ∨ (st.propertyHistory.length : Int) < i) →
      (handleToolCall sf af st fc).activeProperty = st.activeProperty ∧
      (handleToolCall sf af st fc).showGallery = st.showGallery ∧
      (handleToolCall sf af st fc).sentResponses
          = st.sentResponses ++ [(fc.id,
              showPrevOutOfRangeMsg st.propertyHistory.length)])
  ∧ (i = 0 → 1 ≤ (st.propertyHistory.length : Int) →
      (handleToolCall sf af st fc).activeProperty
          = some (st.propertyHistory.getD 0 defaultProperty) ∧
      (handleToolCall sf af st fc).showGallery = true)
  ∧ (i = 0 → st.propertyHistory.length = 0 →
      (handleToolCall sf af st fc).sentResponses
          = st.sentResponses ++ [(fc.id, showPrevOutOfRangeMsg 0)]) := by
  rw [handleToolCall_eq sf af st fc hguard]
  set st2 : AppModel :=
    {st with isProcessing := true,
             toolsUsed := st.toolsUsed ++ [fc.name],
             showLeadForm := st.showLeadForm
               && !(fc.name == "search_property"
                    || fc.name == "show_previous_property")} with hst2
  have hph : st2.propertyHistory = st.propertyHistory := by rw [hst2]
  have hap : st2.activeProperty = st.activeProperty := by rw [hst2]
  have hsg : st2.showGallery = st.showGallery := by rw [hst2]
  have hsu : st2.sessionUp = true := by rw [hst2]; exact hsess
  have hsr : st2.sentResponses = st.sentResponses := by rw [hst2]
  refine ⟨?_, ?_, ?_, ?_⟩
  · intro h1 h2
    have hco : coalesceIndex fc.index = i := by
      rw [hidx]
      simp only [coalesceIndex]
      rw [if_neg (by omega : ¬ i = 0)]
    have hts := toolSwitch_showPrev_inRange sf af st2 fc i hname hco h1
      (by rw [hph]; exact h2)
    refine ⟨?_, ?_, ?_⟩
    · rw [dispatchRespond_activeProperty, hts]
    · rw [dispatchRespond_showGallery, hts]
    · rw [dispatchRespond_sentResponses, hts]
      simp [hsu, hsr, hph, hsess]
  · intro hout
    have hco : coalesceIndex fc.index = i := by
      rw [hidx]
      simp only [coalesceIndex]
      rw [if_neg (by omega : ¬ i = 0)]
    have hts := toolSwitch_showPrev_outOfRange sf af st2 fc i hname hco
      (by rw [hph]; exact hout)
    refine ⟨?_, ?_, ?_⟩
    · rw [dispatchRespond_activeProperty, hts]
    · rw [dispatchRespond_showGallery, hts]
    · rw [dispatchRespond_sentResponses, hts]
      simp [hsu, hsr, hph, hsess]
  · intro h0 hlen
    have hco : coalesceIndex fc.index = 1 := by
      rw [hidx, h0]
      simp [coalesceIndex]
    have hts := toolSwitch_showPrev_inRange sf af st2 fc 1 hname hco
      (le_refl 1) (by rw [hph]; exact hlen)
    refine ⟨?_, ?_⟩
    · rw [dispatchRespond_activeProperty, hts]
      simp [hph]
    · rw [dispatchRespond_showGallery, hts]
  · intro h0 hlen
    have hco : coalesceIndex fc.index = 1 := by
      rw [hidx, h0]
      simp [coalesceIndex]
    have hts := toolSwitch_showPrev_outOfRange sf af st2 fc 1 hname hco
      (by rw [hph, hlen]; omega)
    rw [dispatchRespond_sentResponses, hts]
    simp [hsu, hsr, hph, hlen, hsess]

/-- Witness for C3: invoking `show_previous_property` with index 1
against a one-element history selects that property. -/
theorem show_previous_property_spec_witness :
    (handleToolCall noSearch noAlts historyOneModel showPrevOneCall).activeProperty
      = some sampleProperty :=
  ((show_previous_property_spec noSearch noAlts historyOneModel
      showPrevOneCall 1 rfl rfl rfl rfl).1 (by decide) (by decide)).1

/-! ## Lemmas about the inbound message handler -/

@[simp]
theorem processAudio_none (st : AppModel) : processAudio st none = st := rfl

@[simp]
theorem processInterrupted_false (st : AppModel) :
    processInterrupted st false = st := rfl

@[simp]
theorem processInput_none (st : AppModel) (now : Nat) :
    processInputTranscription st now none = st := rfl

@[simp]
theorem processOutput_none (st : AppModel) :
    processOutputTranscription st none = st := rfl

@[simp]
theorem processTurnComplete_false (st : AppModel) :
    processTurnComplete st false = st := rfl

@[simp]
theorem foldl_handleToolCall_sources
    (sf : String → Except String (List Property))
    (af : String → List String) (fcs : List FnCall) (st : AppModel) :
    (fcs.foldl (handleToolCall sf af) st).sources = st.sources :=
  (foldl_handleToolCall_preserves sf af fcs st).1

@[simp]
theorem foldl_handleToolCall_nextStartTime
    (sf : String → Except String (List Property))
    (af : String → List String) (fcs : List FnCall) (st : AppModel) :
    (fcs.foldl (handleToolCall sf af) st).nextStartTime = st.nextStartTime :=
  (foldl_handleToolCall_preserves sf af fcs st).2.1

@[simp]
theorem foldl_handleToolCall_flushed
    (sf : String → Except String (List Property))
    (af : String → List String) (fcs : List FnCall) (st : AppModel) :
    (fcs.foldl (handleToolCall sf af) st).flushed = st.flushed :=
  (foldl_handleToolCall_preserves sf af fcs st).2.2.1

@[simp]
theorem foldl_handleToolCall_currentInput
    (sf : String → Except String (List Property))
    (af : String → List String) (fcs : List FnCall) (st : AppModel) :
    (fcs.foldl (handleToolCall sf af) st).currentInput = st.currentInput :=
  (foldl_handleToolCall_preserves sf af fcs st).2.2.2.1

@[simp]
theorem foldl_handleToolCall_currentOutput
    (sf : String → Except String (List Property))
    (af : String → List String) (fcs : List FnCall) (st : AppModel) :
    (fcs.foldl (handleToolCall sf af) st).currentOutput = st.currentOutput :=
  (foldl_handleToolCall_preserves sf af fcs st).2.2.2.2.1

@[simp]
theorem foldl_handleToolCall_sessionUp
    (sf : String → Except String (List Property))
    (af : String → List String) (fcs : List FnCall) (st : AppModel) :
    (fcs.foldl (handleToolCall sf af) st).sessionUp = st.sessionUp :=
  (foldl_handleToolCall_preserves sf af fcs st).2.2.2.2.2.1

@[simp]
theorem foldl_handleToolCall_turnStartTime
    (sf : String → Except String (List Property))
    (af : String → List String) (fcs : List FnCall) (st : AppModel) :
    (fcs.foldl (handleToolCall sf af) st).turnStartTime = st.turnStartTime :=
  (foldl_handleToolCall_preserves sf af fcs st).2.2.2.2.2.2.1

@[simp]
theorem foldl_handleToolCall_transcript
    (sf : String → Except String (List Property))
    (af : String → List String) (fcs : List FnCall) (st : AppModel) :
    (fcs.foldl (handleToolCall sf af) st).transcript = st.transcript :=
  (foldl_handleToolCall_preserves sf af fcs st).2.2.2.2.2.2.2

@[simp]
theorem processInput_sources (st : AppModel) (now : Nat) (o : Option String) :
    (processInputTranscription st now o).sources = st.sources := by
  cases o <;>
    simp [processInputTranscription, apply_ite AppModel.sources]

@[simp]
theorem processInput_nextStartTime (st : AppModel) (now : Nat)
    (o : Option String) :
    (processInputTranscription st now o).nextStartTime = st.nextStartTime := by
  cases o <;>
    simp [processInputTranscription, apply_ite AppModel.nextStartTime]

@[simp]
theorem processInput_flushed (st : AppModel) (now : Nat) (o : Option String) :
    (processInputTranscription st now o).flushed = st.flushed := by
  cases o <;>
    simp [processInputTranscription, apply_ite AppModel.flushed]

@[simp]
theorem processInput_sessionUp (st : AppModel) (now : Nat) (o : Option String) :
    (processInputTranscription st now o).sessionUp = st.sessionUp := by
  cases o <;>
    simp [processInputTranscription, apply_ite AppModel.sessionUp]

@[simp]
theorem processOutput_sources (st : AppModel) (o : Option String) :
    (processOutputTranscription st o).sources = st.sources := by
  cases o <;> simp [processOutputTranscription]

@[simp]
theorem processOutput_nextStartTime (st : AppModel) (o : Option String) :
    (processOutputTranscription st o).nextStartTime = st.nextStartTime := by
  cases o <;> simp [processOutputTranscription]

@[simp]
theorem processOutput_flushed (st : AppModel) (o : Option String) :
    (processOutputTranscription st o).flushed = st.flushed := by
  cases o <;> simp [processOutputTranscription]

@[simp]
theorem processOutput_sessionUp (st : AppModel) (o : Option String) :
    (processOutputTranscription st o).sessionUp = st.sessionUp := by
  cases o <;> simp [processOutputTranscription]

@[simp]
theorem processTurnComplete_sources (st : AppModel) (b : Bool) :
    (processTurnComplete st b).sources = st.sources := by
  cases b <;>
    simp [processTurnComplete, apply_ite AppModel.sources]

@[simp]
theorem processTurnComplete_nextStartTime (st : AppModel) (b : Bool) :
    (processTurnComplete st b).nextStartTime = st.nextStartTime := by
  cases b <;>
    simp [processTurnComplete, apply_ite AppModel.nextStartTime]

@[simp]
theorem processTurnComplete_sessionUp (st : AppModel) (b : Bool) :
    (processTurnComplete st b).sessionUp = st.sessionUp := by
  cases b <;>
    simp [processTurnComplete, apply_ite AppModel.sessionUp]

@[simp]
theorem processInterrupted_true_sources (st : AppModel) :
    (processInterrupted st true).sources = [] := by
  simp [processInterrupted, apply_ite AppModel.sources]

@[simp]
theorem processInterrupted_true_nextStartTime (st : AppModel) :
    (processInterrupted st true).nextStartTime = 0 := by
  simp [processInterrupted, apply_ite AppModel.nextStartTime]

@[simp]
theorem processInterrupted_sessionUp (st : AppModel) (b : Bool) :
    (processInterrupted st b).sessionUp = st.sessionUp := by
  cases b <;>
    simp [processInterrupted, apply_ite AppModel.sessionUp]

@[simp]
theorem processAudio_sessionUp (st : AppModel) (a : Option (Nat × Nat)) :
    (processAudio st a).sessionUp = st.sessionUp := by
  rcases a with _ | ⟨t, d⟩ <;> simp [processAudio]

@[simp]
theorem processAudio_flushed (st : AppModel) (a : Option (Nat × Nat)) :
    (processAudio st a).flushed = st.flushed := by
  rcases a with _ | ⟨t, d⟩ <;> simp [processAudio]

@[simp]
theorem processAudio_currentInput (st : AppModel) (a : Option (Nat × Nat)) :
    (processAudio st a).currentInput = st.currentInput := by
  rcases a with _ | ⟨t, d⟩ <;> simp [processAudio]

@[simp]
theorem processAudio_currentOutput (st : AppModel) (a : Option (Nat × Nat)) :
    (processAudio st a).currentOutput = st.currentOutput := by
  rcases a with _ | ⟨t, d⟩ <;> simp [processAudio]

@[simp]
theorem processAudio_toolsUsed (st : AppModel) (a : Option (Nat × Nat)) :
    (processAudio st a).toolsUsed = st.toolsUsed := by
  rcases a with _ | ⟨t, d⟩ <;> simp [processAudio]

@[simp]
theorem processAudio_turnStartTime (st : AppModel) (a : Option (Nat × Nat)) :
    (processAudio st a).turnStartTime = st.turnStartTime := by
  rcases a with _ | ⟨t, d⟩ <;> simp [processAudio]

/-- C7: whatever the playback state when an interruption message
arrives on a live session — and whatever else the same message carries —
immediately after the `onmessage` handler returns, the active-source set
is empty and the playback cursor is zero. -/
theorem interrupt_playback_spec
    (sf : String → Except String (List Property))
    (af : String → List String) (st : AppModel) (msg : ServerMessage)
    (hsess : st.sessionUp = true) (hint : msg.interrupted = true) :
    (onMessage sf af st msg).sources = [] ∧
    (onMessage sf af st msg).nextStartTime = 0 := by
  unfold onMessage
  rw [if_neg (by simp [hsess]), hint]
  constructor <;> simp

/-- Witness for C7: interrupting a state with two scheduled sources and
a non-zero cursor clears both. -/
theorem interrupt_playback_spec_witness :
    (onMessage noSearch noAlts playingModel (interruptMsg 3)).sources = [] ∧
    (onMessage noSearch noAlts playingModel (interruptMsg 3)).nextStartTime = 0 :=
  interrupt_playback_spec noSearch noAlts playingModel (interruptMsg 3) rfl rfl

/-! ## Lemmas about turn aggregation -/

/-- On a live session, a turn-complete-only message is exactly
`processTurnComplete`. -/
theorem onMessage_turnComplete (sf : String → Except String (List Property))
    (af : String → List String) (st : AppModel) (now : Nat)
    (hsess : st.sessionUp = true) :
    onMessage sf af st (turnCompleteMsg now) = processTurnComplete st true := by
  unfold onMessage
  rw [if_neg (by simp [hsess])]
  simp [turnCompleteMsg, emptyMsg]

/-- On a live session, an interruption-only message is exactly
`processInterrupted`. -/
theorem onMessage_interrupt (sf : String → Except String (List Property))
    (af : String → List String) (st : AppModel) (now : Nat)
    (hsess : st.sessionUp = true) :
    onMessage sf af st (interruptMsg now) = processInterrupted st true := by
  unfold onMessage
  rw [if_neg (by simp [hsess])]
  simp [interruptMsg, emptyMsg]

/-- The flush record does not depend on the UI transcript field. -/
@[simp]
theorem mkFlushRecord_transcript (st : AppModel) (x : List (String × String))
    (u a s : String) :
    mkFlushRecord {st with transcript := x} u a s = mkFlushRecord st u a s :=
  rfl

/-- Processing a run of transcript-fragment messages on a live session
accumulates exactly the two concatenations and touches nothing else the
aggregator cares about. -/
theorem frag_run (sf : String → Except String (List Property))
    (af : String → List String) (frags : List Frag) : ∀ st : AppModel,
    st.sessionUp = true → st.turnStartTime = 0 →
    ((frags.map Frag.msg).foldl (onMessage sf af) st).currentInput
        = st.currentInput ++ inputConcat frags ∧
    ((frags.map Frag.msg).foldl (onMessage sf af) st).currentOutput
        = st.currentOutput ++ outputConcat frags ∧
    ((frags.map Frag.msg).foldl (onMessage sf af) st).flushed = st.flushed ∧
    ((frags.map Frag.msg).foldl (onMessage sf af) st).toolsUsed = st.toolsUsed ∧
    ((frags.map Frag.msg).foldl (onMessage sf af) st).sessionUp = true ∧
    ((frags.map Frag.msg).foldl (onMessage sf af) st).turnStartTime = 0 ∧
    ((frags.map Frag.msg).foldl (onMessage sf af) st).activeProperty
        = st.activeProperty := by
  induction frags with
  | nil =>
    intro st h1 h2
    simp [inputConcat, outputConcat, h1, h2]
  | cons f rest ih =>
    intro st h1 h2
    simp only [List.map_cons, List.foldl_cons]
    cases f with
    | inp s =>
      have hmsg : onMessage sf af st (Frag.msg (Frag.inp s))
          = {st with currentInput := st.currentInput ++ s} := by
        unfold onMessage
        rw [if_neg (by simp [h1])]
        simp [Frag.msg, inputMsg, emptyMsg, processInputTranscription, h2]
      rw [hmsg]
      obtain ⟨c1, c2, c3, c4, c5, c6, c7⟩ :=
        ih {st with currentInput := st.currentInput ++ s}
          (by simp [h1]) (by simp [h2])
      refine ⟨?_, ?_, ?_, ?_, c5, c6, ?_⟩
      · rw [c1]
        simp [inputConcat, String.append_assoc]
      · rw [c2]
        simp [outputConcat]
      · rw [c3]
      · rw [c4]
      · rw [c7]
    | outp s =>
      have hmsg : onMessage sf af st (Frag.msg (Frag.outp s))
          = {st with currentOutput := st.currentOutput ++ s} := by
        unfold onMessage
        rw [if_neg (by simp [h1])]
        simp [Frag.msg, outputMsg, emptyMsg, processOutputTranscription]
      rw [hmsg]
      obtain ⟨c1, c2, c3, c4, c5, c6, c7⟩ :=
        ih {st with currentOutput := st.currentOutput ++ s}
          (by simp [h1]) (by simp [h2])
      refine ⟨?_, ?_, ?_, ?_, c5, c6, ?_⟩
      · rw [c1]
        simp [inputConcat]
      · rw [c2]
        simp [outputConcat, String.append_assoc]
      · rw [c3]
      · rw [c4]
      · rw [c7]

/-- Counterexample to C5 as stated: the fragment sequence consisting of
one empty input fragment, followed by turn-complete, flushes no record
at all (the code only saves when `userMsg || botMsg` is truthy, and the
empty string is falsy), not exactly one. -/
theorem turn_concat_empty_counterexample :
    ([Frag.inp ""] ≠ ([] : List Frag)) ∧
    (([Frag.inp ""].map Frag.msg ++ [turnCompleteMsg 0]).foldl
        (onMessage noSearch noAlts) connectedModel).flushed = [] := by
  constructor
  · decide
  · rfl

/-- C5 (amended): for every sequence of inbound transcript fragments
followed by a turn-complete, at least one fragment of which is a
non-empty string, exactly one record is flushed and its user/assistant
texts are the character-for-character concatenations of the input-side
and output-side fragments in arrival order; when every fragment is the
empty string (JS falsy), no record is flushed. -/
theorem turn_concat_spec (sf : String → Except String (List Property))
    (af : String → List String) (frags : List Frag) :
    ((inputConcat frags ≠ "" ∨ outputConcat frags ≠ "") →
      ((frags.map Frag.msg ++ [turnCompleteMsg 0]).foldl (onMessage sf af)
          connectedModel).flushed
        = [{ userText := inputConcat frags,
             assistantText := outputConcat frags, propertyId := none,
             toolsUsed := [], status := "complete", startTime := 0 }])
  ∧ ((inputConcat frags = "" ∧ outputConcat frags = "") →
      ((frags.map Frag.msg ++ [turnCompleteMsg 0]).foldl (onMessage sf af)
          connectedModel).flushed = []) := by
  obtain ⟨c1, c2, c3, c4, c5, c6, c7⟩ :=
    frag_run sf af frags connectedModel rfl rfl
  rw [List.foldl_append]
  set stF := (frags.map Frag.msg).foldl (onMessage sf af) connectedModel
    with hstF
  have hin : stF.currentInput = inputConcat frags := c1
  have hout : stF.currentOutput = outputConcat frags := c2
  rw [List.foldl_cons, List.foldl_nil,
    onMessage_turnComplete sf af stF 0 c5]
  unfold processTurnComplete
  dsimp only
  constructor
  · intro hne
    rw [if_pos (by rw [hin, hout]; exact hne)]
    simp only [mkFlushRecord_transcript]
    rw [c3]
    simp [mkFlushRecord, hin, hout, c4, c6, c7]
    rfl
  · intro hemp
    rw [if_neg (by rw [hin, hout]; simp [hemp.1, hemp.2])]
    simp only []
    rw [show ({stF with
        transcript := jsSliceLast 5
          (stF.transcript ++ [(stF.currentInput, stF.currentOutput)])} :
        AppModel).flushed = stF.flushed from rfl, c3]
    rfl

/-- Witness for C5: two input fragments and one output fragment flush
one `complete` record carrying their concatenations. -/
theorem turn_concat_spec_witness :
    (([Frag.inp "أبي ", Frag.outp "تم", Frag.inp "فيلا"].map Frag.msg
        ++ [turnCompleteMsg 0]).foldl
        (onMessage noSearch noAlts) connectedModel).flushed
      = [{ userText := "أبي فيلا", assistantText := "تم", propertyId := none,
           toolsUsed := [], status := "complete", startTime := 0 }] :=
  (turn_concat_spec noSearch noAlts
      [Frag.inp "أبي ", Frag.outp "تم", Frag.inp "فيلا"]).1 (by decide)

/-- Counterexample to C9 as stated: a turn opened by a tool call (here
`open_lead_form`), with no transcript fragments, is never flushed.  The
tool call is recorded in the tools-used list, yet turn-complete flushes
nothing (the save is guarded by `userMsg || botMsg`), discards the
tools-used list, and a subsequent session end flushes nothing either —
zero flushes for an opened turn, not exactly one. -/
theorem tool_only_turn_never_flushed_counterexample :
    (onMessage noSearch noAlts connectedModel
        (toolCallMsg [leadFormCall] 0)).toolsUsed = ["open_lead_form"] ∧
    (([toolCallMsg [leadFormCall] 0, turnCompleteMsg 0].foldl
        (onMessage noSearch noAlts) connectedModel)).flushed = [] ∧
    (([toolCallMsg [leadFormCall] 0, turnCompleteMsg 0].foldl
        (onMessage noSearch noAlts) connectedModel)).toolsUsed = [] ∧
    (stopSession ([toolCallMsg [leadFormCall] 0, turnCompleteMsg 0].foldl
        (onMessage noSearch noAlts) connectedModel)).flushed = [] := by
  refine ⟨rfl, rfl, rfl, rfl⟩

/-- C9 (amended): a turn is flushed exactly once, at the first of
turn-complete, interruption or session end, provided its accumulated
transcript text is non-empty on at least one side; each of the three
triggers appends exactly one record when text exists and none otherwise,
and leaves the accumulators empty, so the same turn can never be flushed
twice; messages carrying no trigger (fragments, audio, tool calls) never
flush; and a turn whose accumulated texts are both empty — in particular
one opened only by tool calls — is never flushed at all. -/
theorem turn_flush_once_spec (sf : String → Except String (List Property))
    (af : String → List String) (st : AppModel) (now : Nat)
    (hsess : st.sessionUp = true) :
    ((onMessage sf af st (turnCompleteMsg now)).flushed
        = st.flushed ++
          (if st.currentInput ≠ "" ∨ st.currentOutput ≠ "" then
            [mkFlushRecord st st.currentInput st.currentOutput "complete"]
          else [])
      ∧ (onMessage sf af st (turnCompleteMsg now)).currentInput = ""
      ∧ (onMessage sf af st (turnCompleteMsg now)).currentOutput = ""
      ∧ (onMessage sf af st (turnCompleteMsg now)).toolsUsed = [])
  ∧ ((onMessage sf af st (interruptMsg now)).flushed
        = st.flushed ++
          (if st.currentInput ≠ "" ∨ st.currentOutput ≠ "" then
            [mkFlushRecord st
              (if st.currentInput = "" then "[مقاطعة]" else st.currentInput)
              (if st.currentOutput = "" then "[تم المقاطعة]"
               else st.currentOutput)
              "interrupted"]
          else [])
      ∧ (onMessage sf af st (interruptMsg now)).currentInput = ""
      ∧ (onMessage sf af st (interruptMsg now)).currentOutput = "")
  ∧ ((stopSession st).flushed
        = st.flushed ++
          (if st.currentInput ≠ "" ∨ st.currentOutput ≠ "" then
            [mkFlushRecord st
              (if st.currentInput = "" then "[انتهاء الجلسة]"
               else st.currentInput)
              (if st.currentOutput = "" then "[تم إنهاء الجلسة]"
               else st.currentOutput)
              "session_end"]
          else [])
      ∧ (stopSession st).currentInput = ""
      ∧ (stopSession st).currentOutput = "")
  ∧ (∀ msg : ServerMessage, msg.interrupted = false →
      msg.turnComplete = false →
      (onMessage sf af st msg).flushed = st.flushed) := by
  refine ⟨?_, ?_, ?_, ?_⟩
  · rw [onMessage_turnComplete sf af st now hsess]
    unfold processTurnComplete
    dsimp only
    by_cases hopen : st.currentInput ≠ "" ∨ st.currentOutput ≠ ""
    · rw [if_pos hopen, if_pos hopen]
      simp
    · rw [if_neg hopen, if_neg hopen]
      simp
  · rw [onMessage_interrupt sf af st now hsess]
    unfold processInterrupted
    dsimp only
    by_cases hopen : st.currentInput ≠ "" ∨ st.currentOutput ≠ ""
    · rw [if_pos hopen, if_pos hopen]
      refine ⟨?_, ?_, ?_⟩ <;>
        simp [apply_ite AppModel.flushed, apply_ite AppModel.currentInput,
          apply_ite AppModel.currentOutput]
    · rw [if_neg hopen, if_neg hopen]
      push_neg at hopen
      refine ⟨?_, ?_, ?_⟩ <;>
        simp [apply_ite AppModel.flushed, apply_ite AppModel.currentInput,
          apply_ite AppModel.currentOutput, hopen.1, hopen.2]
  · unfold stopSession
    dsimp only
    by_cases hopen : st.currentInput ≠ "" ∨ st.currentOutput ≠ ""
    · rw [if_pos hopen, if_pos hopen]
      simp
    · rw [if_neg hopen, if_neg hopen]
      push_neg at hopen
      simp [hopen.1, hopen.2]
  · intro msg h1 h2
    unfold onMessage
    rw [if_neg (by simp [hsess]), h1, h2]
    simp

/-- Witness for C9: turn-complete on an open turn with text flushes
exactly one `complete` record and clears the accumulators. -/
theorem turn_flush_once_spec_witness :
    (onMessage noSearch noAlts playingModel (turnCompleteMsg 9)).flushed
        = playingModel.flushed ++
          (if playingModel.currentInput ≠ "" ∨ playingModel.currentOutput ≠ ""
           then [mkFlushRecord playingModel playingModel.currentInput
                  playingModel.currentOutput "complete"]
           else []) ∧
    (onMessage noSearch noAlts playingModel (turnCompleteMsg 9)).currentInput
        = "" :=
  ⟨((turn_flush_once_spec noSearch noAlts playingModel 9 rfl).1).1,
   ((turn_flush_once_spec noSearch noAlts playingModel 9 rfl).1).2.1⟩

/-! ## The reconnect counter reset -/

/-- C4 exhibits a code bug: the reconnect cap never takes global effect
because `connectSession` resets `reconnectAttemptsRef.current` to 0 on
every entry (src/types.ts line 1050).  Starting from a live session,
the trace "transport error, reconnect timer fires and the reconnection
succeeds", repeated four times, performs four automatic reconnections —
already more than `maxReconnectAttempts = 3` — and ends connected with
the counter back at 0, so arbitrarily many further automatic
reconnections remain possible; the claimed transition to a terminal
failure state never happens. -/
theorem reconnect_cap_defeated_by_reset :
    maxReconnectAttempts = 3 ∧
    ([CtrlEvent.transportError,
      CtrlEvent.reconnectTimer ConnectOutcome.success,
      CtrlEvent.transportError,
      CtrlEvent.reconnectTimer ConnectOutcome.success,
      CtrlEvent.transportError,
      CtrlEvent.reconnectTimer ConnectOutcome.success,
      CtrlEvent.transportError,
      CtrlEvent.reconnectTimer ConnectOutcome.success].foldl
        ctrlStep ctrlInit).reconnectsStarted = 4 ∧
    ([CtrlEvent.transportError,
      CtrlEvent.reconnectTimer ConnectOutcome.success,
      CtrlEvent.transportError,
      CtrlEvent.reconnectTimer ConnectOutcome.success,
      CtrlEvent.transportError,
      CtrlEvent.reconnectTimer ConnectOutcome.success,
      CtrlEvent.transportError,
      CtrlEvent.reconnectTimer ConnectOutcome.success].foldl
        ctrlStep ctrlInit).reconnectAttempts = 0 ∧
    ([CtrlEvent.transportError,
      CtrlEvent.reconnectTimer ConnectOutcome.success,
      CtrlEvent.transportError,
      CtrlEvent.reconnectTimer ConnectOutcome.success,
      CtrlEvent.transportError,
      CtrlEvent.reconnectTimer ConnectOutcome.success,
      CtrlEvent.transportError,
      CtrlEvent.reconnectTimer ConnectOutcome.success].foldl
        ctrlStep ctrlInit).connected = true := by
  refine ⟨rfl, ?_, ?_, ?_⟩ <;> decide

end Manasat
